import Mathlib

/-
  Verification development for the Lumen language implementation
  (lexer, type checker, evaluator, module loader).

  Each definition below is a shallow embedding of a function of the
  TypeScript source tree; its doc comment names the source file and
  function it mirrors.  Machine numbers are idealized: integers are
  modelled as Int and doubles as Rat (IEEE rounding is outside the
  model).  Loops and recursion of the source are modelled with an
  explicit fuel argument that strictly decreases on every recursive
  call, so every definition is structurally recursive and executable;
  theorems quantify over sufficient fuel.
-/

namespace Lumen

/-! ## Semantic types (src/src/syntax/type.ts) -/

/-- Mirrors the TypeKind enum of src/src/syntax/type.ts.  TUPLE does
    not appear in the visible copy of the enum, but utils.ts imports a
    TupleType from the same module and branches on TypeKind.TUPLE, so
    the tuple kind is included here. -/
inductive TypeKind where
  | INTEGER
  | DOUBLE
  | BOOLEAN
  | STRING
  | FUNCTION
  | HASH
  | ARRAY
  | ANY
  | ERROR
  | NULL
  | SUM_TYPE
  | VARIANT_TYPE
  | TYPE_VARIABLE
  | RECORD
  | TRAIT
  | MODULE
  | TUPLE
  deriving DecidableEq, Repr

/-- Mirrors the LumenType class family of src/src/syntax/type.ts.
    A SumType stores its variants as a list of (variant name, parameter
    types); the back pointer from a variant to its parent sum (a true
    reference cycle in the source) is represented in the standalone
    VariantType constructor by embedding the parent type as a subtree.
    TraitType methods and the diagnostic node of ErrorType are omitted:
    neither unify nor substitute inspects them. -/
inductive LType where
  | integer
  | double
  | boolean
  | stringT
  | nullT
  | anyT
  | errorT (message : String)
  | tvar (name : String)
  | arrayT (elementType : LType)
  | hashT (keyType valueType : LType)
  | tupleT (elementTypes : List LType)
  | fnT (parameters : List LType) (returnType : LType) (typeParameters : List String)
  | sumT (name : String) (typeParameters : List String) (typeArguments : List LType)
         (variants : List (String × List LType))
  | recordT (name : String) (fields : List (String × LType)) (typeParameters : List String)
         (typeArguments : List LType)
  | traitT (name : String) (typeParameters : List String) (typeArguments : List LType)
  | variantT (name : String) (parameters : List LType) (parent : LType)
  | moduleT (name : String)

/-- Mirrors the kind() methods of src/src/syntax/type.ts. -/
def LType.kind : LType → TypeKind
  | .integer => .INTEGER
  | .double => .DOUBLE
  | .boolean => .BOOLEAN
  | .stringT => .STRING
  | .nullT => .NULL
  | .anyT => .ANY
  | .errorT _ => .ERROR
  | .tvar _ => .TYPE_VARIABLE
  | .arrayT _ => .ARRAY
  | .hashT _ _ => .HASH
  | .tupleT _ => .TUPLE
  | .fnT _ _ _ => .FUNCTION
  | .sumT _ _ _ _ => .SUM_TYPE
  | .recordT _ _ _ _ => .RECORD
  | .traitT _ _ _ => .TRAIT
  | .variantT _ _ _ => .VARIANT_TYPE
  | .moduleT _ => .MODULE

/-- Substitution maps (Map of type-variable name to type in
    src/src/interpreter/typechecker/utils.ts), as an association list;
    the source only ever adds a binding for a name that is absent. -/
abbrev Subst := List (String × LType)

/-- Mirrors substitute of src/src/interpreter/typechecker/utils.ts
    (lines 79-168).  The fuel argument stands in for the memo map of the
    source, which guarantees termination there; fuel is consumed on
    every recursion level, and with fuel exceeding the depth of the
    type and of the chains in the substitution the result agrees with
    the source.  Note the source has no case for HASH types (they fall
    through unchanged), and the TRAIT case maps typeArguments only. -/
def substitute : Nat → Subst → LType → LType
  | 0, _, t => t
  | fuel + 1, σ, t =>
    match t with
    | .tvar n =>
      match σ.lookup n with
      | some resolved => substitute fuel σ resolved
      | none => .tvar n
    | .tupleT es => .tupleT (es.map (fun e => substitute fuel σ e))
    | .arrayT e => .arrayT (substitute fuel σ e)
    | .fnT ps r tps =>
      .fnT (ps.map (fun p => substitute fuel σ p)) (substitute fuel σ r) tps
    | .recordT n fs tps targs =>
      let src := if targs.length > 0 then targs else tps.map LType.tvar
      .recordT n (fs.map (fun f => (f.1, substitute fuel σ f.2))) tps
        (src.map (fun a => substitute fuel σ a))
    | .sumT n tps targs vars =>
      let src := if targs.length > 0 then targs else tps.map LType.tvar
      .sumT n tps (src.map (fun a => substitute fuel σ a))
        (vars.map (fun v => (v.1, v.2.map (fun p => substitute fuel σ p))))
    | .variantT n ps parent =>
      .variantT n (ps.map (fun p => substitute fuel σ p)) (substitute fuel σ parent)
    | .traitT n tps targs => .traitT n tps (targs.map (fun a => substitute fuel σ a))
    | other => other

/-- One step of the pairwise unification loops of unify
    (src/src/interpreter/typechecker/utils.ts): the source for-loops
    return false at the first failing component, leaving the map as
    mutated so far. -/
def unifyPair (unifyF : LType → LType → Subst → Bool × Subst)
    (acc : Bool × Subst) (p : LType × LType) : Bool × Subst :=
  if acc.1 then unifyF p.1 p.2 acc.2 else acc

/-- Component accessor mirroring the (as ArrayType).elementType cast of
    the source; the fallback arm is never reached after a kind check. -/
def elementTypeOf : LType → LType
  | .arrayT e => e
  | _ => .anyT

/-- Mirrors the (as HashType).keyType cast. -/
def hashKeyTypeOf : LType → LType
  | .hashT k _ => k
  | _ => .anyT

/-- Mirrors the (as HashType).valueType cast. -/
def hashValueTypeOf : LType → LType
  | .hashT _ v => v
  | _ => .anyT

/-- Mirrors the .name field of SumType, RecordType and TraitType. -/
def nameOf : LType → String
  | .sumT n _ _ _ => n
  | .recordT n _ _ _ => n
  | .traitT n _ _ => n
  | _ => ""

/-- The argument list unify compares for Sum, Record and Trait types:
    typeArguments when instantiated, otherwise the type parameters
    themselves (lines 228-236, 251-259, 274-282 of utils.ts). -/
def unifyArgList : LType → List LType
  | .sumT _ tps targs _ => if targs.length > 0 then targs else tps.map LType.tvar
  | .recordT _ _ tps targs => if targs.length > 0 then targs else tps.map LType.tvar
  | .traitT _ tps targs => if targs.length > 0 then targs else tps.map LType.tvar
  | _ => []

/-- Mirrors the (as FunctionType).parameters cast. -/
def fnParamsOf : LType → List LType
  | .fnT ps _ _ => ps
  | _ => []

/-- Mirrors the (as FunctionType).returnType cast. -/
def fnReturnOf : LType → LType
  | .fnT _ r _ => r
  | _ => .anyT

/-- Mirrors the (as TupleType).elementTypes cast. -/
def tupleElemsOf : LType → List LType
  | .tupleT es => es
  | _ => []

/-- Mirrors the (as TypeVariable).name cast. -/
def tvarNameOf : LType → String
  | .tvar n => n
  | _ => ""

/-- Body of unify after both sides have been substituted: the chain of
    kind tests and casts of src/src/interpreter/typechecker/utils.ts
    lines 178-315, with the recursive calls abstracted as unifyF.  The
    three identical blocks for Sum, Record and Trait (matching name
    plus pairwise unification of the argument lists) are written once
    over a disjunction of the three kinds.  The final catch-all
    returns true whenever the two kinds are equal but no structural
    case applies (line 315 of the source). -/
def unifyCore (unifyF : LType → LType → Subst → Bool × Subst)
    (finalT1 finalT2 : LType) (σ : Subst) : Bool × Subst :=
  if finalT1.kind = .ANY ∨ finalT2.kind = .ANY then (true, σ)
  else if finalT1.kind = .TYPE_VARIABLE then
    let n := tvarNameOf finalT1
    match σ.lookup n with
    | some existing => unifyF existing finalT2 σ
    | none =>
      if finalT2.kind = .TYPE_VARIABLE ∧ tvarNameOf finalT2 = n then (true, σ)
      else (true, (n, finalT2) :: σ)
  else if finalT2.kind = .TYPE_VARIABLE then unifyF finalT2 finalT1 σ
  else if finalT1.kind = .DOUBLE ∧ finalT2.kind = .INTEGER then (true, σ)
  else if finalT1.kind ≠ finalT2.kind then (false, σ)
  else if finalT1.kind = .ARRAY then
    unifyF (elementTypeOf finalT1) (elementTypeOf finalT2) σ
  else if finalT1.kind = .HASH then
    match unifyF (hashKeyTypeOf finalT1) (hashKeyTypeOf finalT2) σ with
    | (false, σ1) => (false, σ1)
    | (true, σ1) => unifyF (hashValueTypeOf finalT1) (hashValueTypeOf finalT2) σ1
  else if finalT1.kind = .SUM_TYPE ∨ finalT1.kind = .RECORD ∨ finalT1.kind = .TRAIT then
    if nameOf finalT1 ≠ nameOf finalT2 then (false, σ)
    else if (unifyArgList finalT1).length ≠ (unifyArgList finalT2).length then (false, σ)
    else ((unifyArgList finalT1).zip (unifyArgList finalT2)).foldl (unifyPair unifyF) (true, σ)
  else if finalT1.kind = .FUNCTION then
    if (fnParamsOf finalT1).length ≠ (fnParamsOf finalT2).length then (false, σ)
    else
      match ((fnParamsOf finalT1).zip (fnParamsOf finalT2)).foldl (unifyPair unifyF) (true, σ) with
      | (false, σ1) => (false, σ1)
      | (true, σ1) => unifyF (fnReturnOf finalT1) (fnReturnOf finalT2) σ1
  else if finalT1.kind = .TUPLE then
    if (tupleElemsOf finalT1).length ≠ (tupleElemsOf finalT2).length then (false, σ)
    else ((tupleElemsOf finalT1).zip (tupleElemsOf finalT2)).foldl (unifyPair unifyF) (true, σ)
  else (true, σ)

/-- Mirrors unify of src/src/interpreter/typechecker/utils.ts
    (lines 170-316).  The in-place mutation of the substitution map is
    modelled by threading the map through and returning it alongside
    the boolean result. -/
def unify : Nat → LType → LType → Subst → Bool × Subst
  | 0, _, _, σ => (false, σ)
  | fuel + 1, t1, t2, σ =>
    unifyCore (fun a b σ2 => unify fuel a b σ2)
      (substitute (fuel + 1) σ t1) (substitute (fuel + 1) σ t2) σ

/-! ## Ground types and relaxed structural compatibility -/

/-- Types containing no type variable, on which substitute acts as the
    identity and unify never extends the substitution map.  A generic
    Sum, Record or Trait whose typeArguments are empty but whose
    typeParameters are not is excluded, because unify falls back to
    comparing the parameters as type variables there. -/
inductive Ground : LType → Prop where
  | integer : Ground .integer
  | double : Ground .double
  | boolean : Ground .boolean
  | stringT : Ground .stringT
  | nullT : Ground .nullT
  | anyT : Ground .anyT
  | errorT (m : String) : Ground (.errorT m)
  | moduleT (n : String) : Ground (.moduleT n)
  | arrayT {e : LType} : Ground e → Ground (.arrayT e)
  | hashT {k v : LType} : Ground k → Ground v → Ground (.hashT k v)
  | tupleT {es : List LType} : (∀ e ∈ es, Ground e) → Ground (.tupleT es)
  | fnT {ps : List LType} {r : LType} {tps : List String} :
      (∀ p ∈ ps, Ground p) → Ground r → Ground (.fnT ps r tps)
  | sumT {n : String} {tps : List String} {targs : List LType}
      {vars : List (String × List LType)} :
      (targs = [] → tps = []) → (∀ a ∈ targs, Ground a) →
      (∀ v ∈ vars, ∀ p ∈ v.2, Ground p) → Ground (.sumT n tps targs vars)
  | recordT {n : String} {fs : List (String × LType)} {tps : List String}
      {targs : List LType} :
      (targs = [] → tps = []) → (∀ a ∈ targs, Ground a) →
      (∀ f ∈ fs, Ground f.2) → Ground (.recordT n fs tps targs)
  | traitT {n : String} {tps : List String} {targs : List LType} :
      (targs = [] → tps = []) → (∀ a ∈ targs, Ground a) → Ground (.traitT n tps targs)
  | variantT {n : String} {ps : List LType} {parent : LType} :
      (∀ p ∈ ps, Ground p) → Ground parent → Ground (.variantT n ps parent)

/-- Kinds that unify accepts by kind equality alone, without
    decomposing the two types (they reach the final return true of
    utils.ts line 315): primitives, errors, modules and variants. -/
def opaqueKind : TypeKind → Bool
  | .INTEGER => true
  | .DOUBLE => true
  | .BOOLEAN => true
  | .STRING => true
  | .NULL => true
  | .ERROR => true
  | .MODULE => true
  | .VARIANT_TYPE => true
  | _ => false

/-- Structural equality up to the relaxations unify implements: Any
    matches anything, a Double on the left accepts an Integer on the
    right, kinds that unify does not decompose are identified by kind
    alone, and composite types are compared componentwise (Sum, Record
    and Trait by name and argument list, ignoring variants, fields and
    methods, exactly as unify does). -/
inductive Compat : LType → LType → Prop where
  | any_left (t : LType) : Compat .anyT t
  | any_right (t : LType) : Compat t .anyT
  | double_integer : Compat .double .integer
  | opaque_kinds {t1 t2 : LType} :
      t1.kind = t2.kind → opaqueKind t1.kind = true → Compat t1 t2
  | arrayT {e1 e2 : LType} : Compat e1 e2 → Compat (.arrayT e1) (.arrayT e2)
  | hashT {k1 v1 k2 v2 : LType} :
      Compat k1 k2 → Compat v1 v2 → Compat (.hashT k1 v1) (.hashT k2 v2)
  | tupleT {es1 es2 : List LType} :
      es1.length = es2.length → (∀ p ∈ es1.zip es2, Compat p.1 p.2) →
      Compat (.tupleT es1) (.tupleT es2)
  | fnT {p1 p2 : List LType} {r1 r2 : LType} {tps1 tps2 : List String} :
      p1.length = p2.length → (∀ p ∈ p1.zip p2, Compat p.1 p.2) → Compat r1 r2 →
      Compat (.fnT p1 r1 tps1) (.fnT p2 r2 tps2)
  | named {t1 t2 : LType} :
      (t1.kind = .SUM_TYPE ∨ t1.kind = .RECORD ∨ t1.kind = .TRAIT) →
      t1.kind = t2.kind → nameOf t1 = nameOf t2 →
      (unifyArgList t1).length = (unifyArgList t2).length →
      (∀ p ∈ (unifyArgList t1).zip (unifyArgList t2), Compat p.1 p.2) →
      Compat t1 t2

/-! ## Type to string (toString methods of src/src/syntax/type.ts) -/

/-- Mirrors the toString methods of src/src/syntax/type.ts (the
    bounds of a TypeVariable are not modelled, so their printing is
    elided).  Fuel bounds the recursion depth; with fuel at least the
    depth of the type the result agrees with the source. -/
def tyToString : Nat → LType → String
  | 0, _ => ""
  | fuel + 1, t =>
    match t with
    | .integer => "Integer"
    | .double => "Double"
    | .boolean => "Boolean"
    | .stringT => "String"
    | .nullT => "Null"
    | .anyT => "Any"
    | .errorT m => "TypeError: " ++ m
    | .tvar n => n
    | .arrayT e => "Array<" ++ tyToString fuel e ++ ">"
    | .hashT k v => "Hash<" ++ tyToString fuel k ++ ", " ++ tyToString fuel v ++ ">"
    | .tupleT es => "(" ++ String.intercalate ", " (es.map (fun e => tyToString fuel e)) ++ ")"
    | .fnT ps r tps =>
      "fn" ++ (if tps.length > 0 then "<" ++ String.intercalate ", " tps ++ ">" else "")
        ++ "(" ++ String.intercalate ", " (ps.map (fun p => tyToString fuel p)) ++ ") -> "
        ++ tyToString fuel r
    | .sumT n tps targs _ =>
      if targs.length > 0 then
        n ++ "<" ++ String.intercalate ", " (targs.map (fun a => tyToString fuel a)) ++ ">"
      else if tps.length > 0 then n ++ "<" ++ String.intercalate ", " tps ++ ">"
      else n
    | .recordT n _ tps targs =>
      if targs.length > 0 then
        n ++ "<" ++ String.intercalate ", " (targs.map (fun a => tyToString fuel a)) ++ ">"
      else if tps.length > 0 then n ++ "<" ++ String.intercalate ", " tps ++ ">"
      else n
    | .traitT n tps targs =>
      if targs.length > 0 then
        n ++ "<" ++ String.intercalate ", " (targs.map (fun a => tyToString fuel a)) ++ ">"
      else if tps.length > 0 then n ++ "<" ++ String.intercalate ", " tps ++ ">"
      else n
    | .variantT n ps _ =>
      n ++ "(" ++ String.intercalate ", " (ps.map (fun p => tyToString fuel p)) ++ ")"
    | .moduleT n => "<module " ++ n ++ ">"

/-- Mirrors isSameType of src/src/interpreter/typechecker/utils.ts
    (lines 25-64); fuel bounds the recursion depth. -/
def isSameType : Nat → LType → LType → Bool
  | 0, _, _ => false
  | fuel + 1, a, b =>
    if a.kind = .ANY ∨ b.kind = .ANY ∨ a.kind = .TYPE_VARIABLE ∨ b.kind = .TYPE_VARIABLE then
      true
    else if (a.kind = .DOUBLE ∧ b.kind = .INTEGER) ∨ (a.kind = .INTEGER ∧ b.kind = .DOUBLE) then
      true
    else if a.kind ≠ b.kind then false
    else if tyToString fuel a = tyToString fuel b then true
    else if a.kind = .ARRAY then isSameType fuel (elementTypeOf a) (elementTypeOf b)
    else if a.kind = .HASH then
      isSameType fuel (hashKeyTypeOf a) (hashKeyTypeOf b)
        && isSameType fuel (hashValueTypeOf a) (hashValueTypeOf b)
    else if a.kind = .FUNCTION then
      if (fnParamsOf a).length ≠ (fnParamsOf b).length then false
      else if isSameType fuel (fnReturnOf a) (fnReturnOf b) = false then false
      else ((fnParamsOf a).zip (fnParamsOf b)).all (fun p => isSameType fuel p.1 p.2)
    else false

/-! ## Type environment and checker AST fragment -/

/-- Modelled from the spec: the type environment of
    src/src/interpreter/typechecker/environment.ts, which is not among
    the provided sources (only its callers are).  Spec section 3:
    environments are chains of maps whose bindings carry a type and a
    mutability flag; spec section 9 describes active patterns as a
    registry from case name to a scrutinee-consuming function type.
    The chain is modelled by prepending inner bindings, which gives
    the same lookup results as walking the chain outward; the
    constructor table and exposed-name set play no role in the claims
    below and are elided. -/
structure TBinding where
  type : LType
  isMutable : Bool

/-- Modelled from the spec: see TBinding. -/
structure TypeEnv where
  bindings : List (String × TBinding)
  activePatterns : List (String × LType)

/-- Modelled from the spec: chain lookup. -/
def TypeEnv.get (env : TypeEnv) (name : String) : Option TBinding :=
  env.bindings.lookup name

/-- Modelled from the spec: binding a name in the innermost frame. -/
def TypeEnv.set (env : TypeEnv) (name : String) (t : LType) (isMutable : Bool) : TypeEnv :=
  { env with bindings := (name, ⟨t, isMutable⟩) :: env.bindings }

/-- Modelled from the spec: active-pattern registry lookup. -/
def TypeEnv.getActivePatternType (env : TypeEnv) (name : String) : Option LType :=
  env.activePatterns.lookup name

mutual
/-- Fragment of the match patterns of src/src/syntax/ast.ts used by
    checkMatchExpression: wildcard, variant pattern (name applied to
    identifiers), identifier pattern, array pattern with optional
    rest, and a literal or expression pattern. -/
inductive MPattern where
  | wildcard
  | variantP (name : String) (parameters : List String)
  | identP (name : String)
  | arrayP (elements : List String) (rest : Option String)
  | exprP (e : TExpr)

/-- Fragment of the expression AST of src/src/syntax/ast.ts that the
    type-checker claims exercise: literals, identifiers, calls and
    match expressions. -/
inductive TExpr where
  | intLit (value : Int)
  | doubleLit (value : ℚ)
  | boolLit (value : Bool)
  | strLit (value : String)
  | identE (name : String)
  | callE (func : TExpr) (args : List TExpr)
  | matchE (values : List TExpr) (arms : List (MPattern × TExpr))
end

/-- Display form of a pattern, used by the diagnostic messages of
    checkMatchExpression (pattern.toString() in the source). -/
def patToString : MPattern → String
  | .wildcard => "_"
  | .variantP n ps => n ++ "(" ++ String.intercalate ", " ps ++ ")"
  | .identP n => n
  | .arrayP es r =>
    "[" ++ String.intercalate ", " (es ++ (match r with | some n => ["..." ++ n] | none => [])) ++ "]"
  | .exprP _ => "<expression>"

/-- Mirrors the .variants map of a SumType. -/
def sumVariantsOf : LType → List (String × List LType)
  | .sumT _ _ _ vars => vars
  | _ => []

/-- Mirrors the (as VariantType).parameters cast. -/
def variantParamsOf : LType → List LType
  | .variantT _ ps _ => ps
  | _ => []

/-- Binding the identifiers of a variant pattern to the variant
    parameter types in the arm environment (the forEach loops of
    checkMatchExpression); arity equality has been checked before. -/
def bindPatternParams (env : TypeEnv) (params : List String) (types : List LType) : TypeEnv :=
  (params.zip types).foldl (fun e p => e.set p.1 p.2 false) env

/-- Loop state of the arm loop of checkMatchExpression: the type of
    the first arm and the substitution map accumulated by unifying the
    later arm types against it. -/
structure MatchArmState where
  firstArmType : Option LType
  substitutions : Subst

/-- Pattern processing of an arm that was not already handled as a
    wildcard or active pattern, following the kind of the scrutinee
    (the if chain at lines 378-442 of checkControlFlow.ts).  For a
    primitive scrutinee only expression patterns are modelled; the
    remaining pattern forms there are outside the claims of this
    development and bind nothing. -/
def checkMatchArmByKind (checkF : TExpr → TypeEnv → Option LType → LType) (uF : Nat)
    (env : TypeEnv) (valueType : LType) (pat : MPattern) : LType ⊕ TypeEnv :=
  if valueType.kind = .SUM_TYPE then
    match env.get (nameOf valueType) with
    | none => .inl (.errorT ("Could not find definition for type " ++ nameOf valueType))
    | some b =>
      if b.type.kind ≠ .SUM_TYPE then
        .inl (.errorT ("Could not find definition for type " ++ nameOf valueType))
      else
        match pat with
        | .variantP variantName params =>
          match (sumVariantsOf b.type).lookup variantName with
          | none =>
            .inl (.errorT (nameOf valueType ++ " has no variant named " ++ variantName))
          | some genericParams =>
            let variantSubstitutions := (unify uF b.type valueType []).2
            let variantType :=
              substitute uF variantSubstitutions (.variantT variantName genericParams b.type)
            if params.length ≠ (variantParamsOf variantType).length then
              .inl (.errorT ("variant " ++ variantName ++ " expects "
                ++ toString (variantParamsOf variantType).length
                ++ " parameters, but pattern provides " ++ toString params.length))
            else .inr (bindPatternParams env params (variantParamsOf variantType))
        | _ => .inr env
  else if valueType.kind = .ARRAY then
    match pat with
    | .arrayP elems rest =>
      let env1 := elems.foldl (fun e n => e.set n (elementTypeOf valueType) false) env
      .inr (match rest with
        | some rn => env1.set rn valueType false
        | none => env1)
    | .identP n => .inr (env.set n valueType false)
    | .wildcard => .inr env
    | p => .inl (.errorT ("invalid pattern for Array type: " ++ patToString p))
  else if valueType.kind = .STRING ∨ valueType.kind = .INTEGER
      ∨ valueType.kind = .DOUBLE ∨ valueType.kind = .BOOLEAN then
    match pat with
    | .exprP pe =>
      let patternType := checkF pe env (some valueType)
      if patternType.kind = .ERROR then .inl patternType
      else if isSameType uF valueType patternType = false then
        .inl (.errorT ("This pattern has type " ++ tyToString uF patternType
          ++ ", but the match is on a value of type " ++ tyToString uF valueType ++ "."))
      else .inr env
    | _ => .inr env
  else .inr env

/-- One iteration of the arm loop of checkMatchExpression
    (src/src/interpreter/typechecker/checkers/checkControlFlow.ts,
    lines 334-459): pattern processing (active patterns first, then
    the branch dictated by the scrutinee kind), then checking the arm
    body against the running common type.  Returns the error that
    aborts the whole check, or the updated loop state.  uF is the fuel
    passed to unify and substitute. -/
def checkMatchArm (checkF : TExpr → TypeEnv → Option LType → LType) (uF : Nat)
    (env : TypeEnv) (valueType : LType) (expectedType : Option LType)
    (arm : MPattern × TExpr) (st : MatchArmState) : LType ⊕ MatchArmState :=
  let patRes : LType ⊕ TypeEnv :=
    match arm.1 with
    | .wildcard => .inr env
    | .variantP caseName params =>
      match env.getActivePatternType caseName with
      | some activePatternType =>
        let inputParamType := (fnParamsOf activePatternType).headD .anyT
        if (unify uF inputParamType valueType []).1 = false then
          .inl (.errorT ("Pattern " ++ caseName ++ " expects an input of type "
            ++ tyToString uF inputParamType ++ ", but is matching on a value of type "
            ++ tyToString uF valueType))
        else
          let returnSumType := fnReturnOf activePatternType
          match (sumVariantsOf returnSumType).lookup caseName with
          | none =>
            .inl (.errorT ("The function for active pattern \x27" ++ caseName
              ++ "\x27 returns type \x27" ++ tyToString uF returnSumType
              ++ "\x27, which does not have a variant named \x27" ++ caseName ++ "\x27"))
          | some variantParams =>
            if variantParams.length ≠ params.length then
              .inl (.errorT ("Pattern case \x27" ++ caseName ++ "\x27 expects "
                ++ toString variantParams.length ++ " arguments, but pattern provides "
                ++ toString params.length))
            else .inr (bindPatternParams env params variantParams)
      | none => checkMatchArmByKind checkF uF env valueType arm.1
    | p => checkMatchArmByKind checkF uF env valueType p
  match patRes with
  | .inl err => .inl err
  | .inr armEnv =>
    let expectedArmType : Option LType :=
      match st.firstArmType with
      | some f => some (substitute uF st.substitutions f)
      | none => expectedType
    let armBodyType := checkF arm.2 armEnv expectedArmType
    if armBodyType.kind = .ERROR then .inl armBodyType
    else
      match st.firstArmType with
      | none => .inr ⟨some armBodyType, st.substitutions⟩
      | some f =>
        let u := unify uF f armBodyType st.substitutions
        if u.1 = false then
          .inl (.errorT ("match arms must have the same type. Expected "
            ++ tyToString uF (substitute uF u.2 f) ++ " but got " ++ tyToString uF armBodyType))
        else .inr ⟨some f, u.2⟩

/-- The arm loop of checkMatchExpression; stops at the first error. -/
def checkMatchArms (checkF : TExpr → TypeEnv → Option LType → LType) (uF : Nat)
    (env : TypeEnv) (valueType : LType) (expectedType : Option LType) :
    List (MPattern × TExpr) → MatchArmState → LType ⊕ MatchArmState
  | [], st => .inr st
  | arm :: rest, st =>
    match checkMatchArm checkF uF env valueType expectedType arm st with
    | .inl err => .inl err
    | .inr st2 => checkMatchArms checkF uF env valueType expectedType rest st2

/-- Set insertion in JS iteration order (new entries at the end). -/
def insertIfAbsent (l : List String) (n : String) : List String :=
  if n ∈ l then l else l ++ [n]

/-- The exhaustiveness scan over the arms (lines 465-473 of
    checkControlFlow.ts): collect names of variant patterns into the
    covered set, stopping at the first wildcard. -/
def coveredScan : List (MPattern × TExpr) → List String → Bool × List String
  | [], acc => (false, acc)
  | (p, _) :: rest, acc =>
    match p with
    | .wildcard => (true, acc)
    | .variantP n _ => coveredScan rest (insertIfAbsent acc n)
    | _ => coveredScan rest acc

/-- Mirrors checkMatchExpression of
    src/src/interpreter/typechecker/checkers/checkControlFlow.ts
    (lines 318-489), with the recursive checker abstracted as checkF.
    The exhaustiveness block after the arm loop (lines 461-486)
    inspects the arms of a Sum scrutinee: no wildcard and fewer
    distinct covered names than variants of the sum definition is the
    non-exhaustive error. -/
def checkMatchExpressionF (checkF : TExpr → TypeEnv → Option LType → LType) (uF : Nat)
    (values : List TExpr) (arms : List (MPattern × TExpr)) (env : TypeEnv)
    (expectedType : Option LType) : LType :=
  if values.length ≠ 1 then
    .errorT "match on tuples is not yet supported by the typechecker"
  else
    let valueType := checkF (values.headD (.intLit 0)) env none
    if valueType.kind = .ERROR then valueType
    else
      match checkMatchArms checkF uF env valueType expectedType arms ⟨none, []⟩ with
      | .inl err => err
      | .inr st =>
        let exhaustErr : Option LType :=
          if valueType.kind = .SUM_TYPE then
            let scan := coveredScan arms []
            match env.get (nameOf valueType) with
            | some b =>
              if b.type.kind = .SUM_TYPE then
                let allVariants := (sumVariantsOf b.type).map Prod.fst
                if scan.1 = false ∧ scan.2.length < allVariants.length then
                  some (.errorT ("match is not exhaustive. Missing patterns: "
                    ++ String.intercalate ", " (allVariants.filter (fun v => ¬(v ∈ scan.2)))))
                else none
              else none
            | none => none
          else none
        match exhaustErr with
        | some err => err
        | none =>
          match st.firstArmType with
          | some t => substitute uF st.substitutions t
          | none => .nullT

/-- The argument loop of the writeln, write and strFormat cases of
    checkCallExpression: check each argument, stopping at the first
    error. -/
def checkArgsSeq (checkF : TExpr → TypeEnv → Option LType → LType) (env : TypeEnv) :
    List TExpr → Option LType
  | [] => none
  | a :: rest =>
    let t := checkF a env none
    if t.kind = .ERROR then some t else checkArgsSeq checkF env rest

/-- Mirrors checkCallExpression of
    src/src/interpreter/typechecker/checkers/checkExpressions.ts
    (lines 545-631): when the callee is an identifier naming one of the
    hardwired builtins, the call is checked by the dedicated branch of
    the switch; in particular len (lines 562-575) demands exactly one
    argument whose type kind is ARRAY or STRING and returns Integer.
    The general call path (variant constructors, record constructors
    and ordinary functions, lines 633-760) is not exercised by any
    claim of this development and is represented by a marker error. -/
def checkCallExpressionF (checkF : TExpr → TypeEnv → Option LType → LType) (uF : Nat)
    (func : TExpr) (args : List TExpr) (env : TypeEnv) : LType :=
  match func with
  | .identE funcName =>
    if funcName = "writeln" ∨ funcName = "write" then
      match checkArgsSeq checkF env args with
      | some err => err
      | none => .nullT
    else if funcName = "len" then
      if args.length ≠ 1 then
        .errorT "wrong number of arguments for \x27len\x27: expected 1"
      else
        let argTypeLen := checkF (args.headD (.intLit 0)) env none
        if argTypeLen.kind = .ERROR then argTypeLen
        else if argTypeLen.kind ≠ .ARRAY ∧ argTypeLen.kind ≠ .STRING then
          .errorT ("argument to \x27len\x27 must be an Array or String, but got "
            ++ tyToString uF argTypeLen)
        else .integer
    else if funcName = "first" ∨ funcName = "rest" then
      if args.length ≠ 1 then
        .errorT ("wrong number of arguments for \x27" ++ funcName ++ "\x27: expected 1")
      else
        let argTy := checkF (args.headD (.intLit 0)) env none
        if argTy.kind = .ERROR then argTy
        else if argTy.kind ≠ .ARRAY then
          .errorT ("argument to \x27" ++ funcName ++ "\x27 must be an array, but got "
            ++ tyToString uF argTy)
        else if funcName = "first" then elementTypeOf argTy
        else argTy
    else if funcName = "prepend" then
      if args.length ≠ 2 then
        .errorT "wrong number of arguments for \x27prepend\x27: expected 2"
      else
        let elementType := checkF (args.headD (.intLit 0)) env none
        if elementType.kind = .ERROR then elementType
        else
          let arrayTypePrepend :=
            checkF ((args.drop 1).headD (.intLit 0)) env (some (.arrayT elementType))
          if arrayTypePrepend.kind = .ERROR then arrayTypePrepend
          else if arrayTypePrepend.kind ≠ .ARRAY then
            .errorT ("second argument to \x27prepend\x27 must be an array, got "
              ++ tyToString uF arrayTypePrepend)
          else if isSameType uF (elementTypeOf arrayTypePrepend) elementType = false then
            .errorT ("type mismatch in \x27prepend\x27: element type is "
              ++ tyToString uF elementType ++ " but array element type is "
              ++ tyToString uF (elementTypeOf arrayTypePrepend))
          else arrayTypePrepend
    else if funcName = "strFormat" then
      if args.length < 1 then .errorT "\x27strFormat\x27 expects at least 1 argument"
      else
        let formatStringType := checkF (args.headD (.intLit 0)) env (some .stringT)
        if formatStringType.kind = .ERROR then formatStringType
        else if formatStringType.kind ≠ .STRING then
          .errorT ("first argument to \x27strFormat\x27 must be a String, got "
            ++ tyToString uF formatStringType)
        else
          match checkArgsSeq checkF env (args.drop 1) with
          | some err => err
          | none => .stringT
    else .errorT "call checking beyond the builtin special cases is outside this development"
  | _ => .errorT "call checking beyond the builtin special cases is outside this development"

/-- Mirrors the expression dispatch of check
    (src/src/interpreter/typechecker/typechecker.ts lines 510-513 for
    literals; identifier resolution reduced to the binding store, the
    constructor table playing no role in the claims below).  Fuel
    decreases on every recursion into a subexpression. -/
def check : Nat → TExpr → TypeEnv → Option LType → LType
  | 0, _, _, _ => .errorT "recursion limit exceeded"
  | fuel + 1, e, env, expectedType =>
    match e with
    | .intLit _ => .integer
    | .doubleLit _ => .double
    | .boolLit _ => .boolean
    | .strLit _ => .stringT
    | .identE n =>
      match env.get n with
      | some b => b.type
      | none => .errorT ("identifier not found: " ++ n)
    | .callE f args =>
      checkCallExpressionF (fun e2 env2 exp2 => check fuel e2 env2 exp2) fuel f args env
    | .matchE values arms =>
      checkMatchExpressionF (fun e2 env2 exp2 => check fuel e2 env2 exp2) fuel
        values arms env expectedType

/-- The len entry of the builtinTypes table of src/src/core/types.ts
    (line 19): len is registered there with type (Any) -> Integer.
    The other entries of the table are not needed by any claim and are
    elided. -/
def builtinTypes : List (String × LType) := [("len", .fnT [.anyT] .integer [])]

/-! ## Evaluator AST, runtime values and environments
    (src/src/syntax/ast.ts, src/src/runtime/objects.ts,
    src/src/interpreter/evaluator/environment.ts,
    src/src/interpreter/evaluator/evaluator.ts) -/

/-- Fragment of the AST of src/src/syntax/ast.ts that the evaluator
    claims exercise.  Statements and expressions form one Node family,
    as in the source (the evaluator dispatches on the node class).
    Let bindings are restricted to identifier patterns; destructuring
    patterns, declarations, module and use statements, member access,
    hash and tuple literals, if, match and when expressions play no
    role in the claims below. -/
inductive Node where
  | blockStmt (statements : List Node)
  | letStmt (isMutable : Bool) (name : String) (value : Node)
  | returnStmt (returnValue : Node)
  | exprStmt (expression : Node)
  | identifier (value : String)
  | integerLiteral (value : Int)
  | doubleLiteral (value : ℚ)
  | booleanLiteral (value : Bool)
  | stringLiteral (value : String)
  | arrayLiteral (elements : List Node)
  | functionLiteral (parameters : List String) (body : Node)
  | prefixExpr (operator : String) (right : Node)
  | infixExpr (operator : String) (left right : Node)
  | indexExpr (left index : Node)
  | callExpr (func : Node) (args : List Node)
  | tryExpr (left : Node)

/-- Mirrors the LumenObject family of src/src/runtime/objects.ts.
    Numbers are idealized (Int and Rat).  Function environments are
    references into the frame store (closures share mutable frames in
    the source).  Hashes are keyed by the hash string of the key, as
    in the source Map.  Builtin, Module and Tuple objects are not
    exercised by the claims and are elided; the record-constructor and
    selfContext flags of LumenFunction are carried as the
    isRecordConstructor and recordName fields. -/
inductive Obj where
  | integer (value : Int)
  | double (value : ℚ)
  | boolean (value : Bool)
  | stringV (value : String)
  | nullV
  | arrayV (elements : List Obj)
  | hashV (pairs : List (String × Obj × Obj))
  | recordV (name : String) (fields : List (String × Obj))
  | sumInstance (typeName variantName : String) (values : List Obj)
  | functionV (parameters : List String) (body : Node) (env : Nat)
      (isRecordConstructor : Bool) (recordName : String)
  | variantConstructor (name typeName : String)
  | returnValue (value : Obj)
  | errorV (message : String)

/-- Mirrors the type() tags of src/src/runtime/objects.ts (the
    ObjectType enum values). -/
def objType : Obj → String
  | .integer _ => "Integer"
  | .double _ => "Double"
  | .boolean _ => "Boolean"
  | .stringV _ => "String"
  | .nullV => "NULL"
  | .arrayV _ => "Array"
  | .hashV _ => "Hash"
  | .recordV _ _ => "Record"
  | .sumInstance _ _ _ => "SUM_TYPE_INSTANCE"
  | .functionV _ _ _ _ _ => "FUNCTION"
  | .variantConstructor _ _ => "VARIANT_CONSTRUCTOR"
  | .returnValue _ => "RETURN_VALUE"
  | .errorV _ => "ERROR"

/-- Mirrors instanceof LumenError checks. -/
def isErrorObj : Obj → Bool
  | .errorV _ => true
  | _ => false

/-- Mirrors isTruthy of evaluator.ts (line 116): everything except the
    NULL and FALSE singletons is truthy. -/
def isTruthy : Obj → Bool
  | .nullV => false
  | .boolean false => false
  | _ => true

/-- Mirrors nativeBoolToBooleanObject of evaluator.ts. -/
def nativeBoolToBooleanObject (input : Bool) : Obj := .boolean input

/-- The numeric value of an Integer or Double object (the .value field
    read by evalInfixExpression); other objects never reach the reads
    thanks to the preceding kind checks. -/
def numberValue : Obj → ℚ
  | .integer n => (n : ℚ)
  | .double q => q
  | _ => 0

/-- The integer value of an Integer object. -/
def intValue : Obj → Int
  | .integer n => n
  | _ => 0

/-- Mirrors the hashKey methods of src/src/runtime/objects.ts:
    LumenInteger, LumenDouble and LumenString are Hashable; no other
    class (including LumenBoolean) implements hashKey.  The textual
    rendering of a Double uses the Rat printer, an idealization of the
    JS number printer that no claim depends on. -/
def hashKeyOf : Obj → Option String
  | .integer n => some ("INTEGER_" ++ toString n)
  | .double q => some ("DOUBLE_" ++ toString q)
  | .stringV s => some ("STRING_" ++ s)
  | _ => none

/-- Mirrors inspect of src/src/runtime/objects.ts for the objects that
    can appear in the diagnostic messages used here. -/
def inspect : Obj → String
  | .integer n => toString n
  | .double q => toString q
  | .boolean b => toString b
  | .stringV s => s
  | .nullV => "null"
  | _ => "<object>"

/-- Mirrors the ValueBinding record of
    src/src/interpreter/evaluator/environment.ts. -/
structure Binding where
  value : Obj
  isMutable : Bool

/-- One Environment object of
    src/src/interpreter/evaluator/environment.ts: its own store and a
    reference to the enclosing environment.  The store is an
    association list in insertion order, like the source Map. -/
structure Frame where
  store : List (String × Binding)
  outer : Option Nat

/-- The heap of environment frames plus the process-wide
    variantToSumType map (shared by all frames of a chain in the
    source; the per-environment implementation and active-pattern
    tables are not exercised by the claims).  A frame reference is an
    index into frames; new Environment(outer) appends a frame. -/
structure EvalState where
  frames : List Frame
  variantToSumType : List (String × String)

/-- Map.get on a frame store. -/
def storeLookup : List (String × Binding) → String → Option Binding
  | [], _ => none
  | (k, b) :: rest, n => if k = n then some b else storeLookup rest n

/-- Map.set on a frame store: replace in place, else append. -/
def storeSet : List (String × Binding) → String → Binding → List (String × Binding)
  | [], n, b => [(n, b)]
  | (k, v) :: rest, n, b => if k = n then (n, b) :: rest else (k, v) :: storeSet rest n b

/-- Replacing a frame of the store. -/
def updateFrame (st : EvalState) (i : Nat) (fr : Frame) : EvalState :=
  { st with frames := st.frames.set i fr }

/-- Mirrors Environment.getBinding of
    src/src/interpreter/evaluator/environment.ts (lines 50-56): the
    nearest binding along the outer chain.  Fuel bounds the chain
    walk; any fuel exceeding the frame count suffices on the acyclic
    chains the evaluator builds. -/
def getBinding : Nat → EvalState → Nat → String → Option Binding
  | 0, _, _, _ => none
  | fuel + 1, st, ref, name =>
    match st.frames.get? ref with
    | none => none
    | some fr =>
      match storeLookup fr.store name with
      | some b => some b
      | none =>
        match fr.outer with
        | some o => getBinding fuel st o name
        | none => none

/-- Variant of getBinding that also returns the index of the frame
    holding the binding; it walks exactly as getBinding does. -/
def getBindingFrame : Nat → EvalState → Nat → String → Option (Nat × Binding)
  | 0, _, _, _ => none
  | fuel + 1, st, ref, name =>
    match st.frames.get? ref with
    | none => none
    | some fr =>
      match storeLookup fr.store name with
      | some b => some (ref, b)
      | none =>
        match fr.outer with
        | some o => getBindingFrame fuel st o name
        | none => none

/-- The parent-walking loop of Environment.set (lines 68-79 of
    environment.ts): find the nearest ancestor frame binding the name;
    if its binding is immutable, return with the store untouched,
    otherwise rebind there.  Returns none when no ancestor binds the
    name (the caller then creates a fresh binding). -/
def envSetOuter : Nat → EvalState → Option Nat → String → Obj → Option EvalState
  | _, _, none, _, _ => none
  | 0, _, some _, _, _ => none
  | fuel + 1, st, some p, name, val =>
    match st.frames.get? p with
    | none => none
    | some fr =>
      match storeLookup fr.store name with
      | some existingBinding =>
        if existingBinding.isMutable = false then some st
        else some (updateFrame st p ⟨storeSet fr.store name ⟨val, existingBinding.isMutable⟩, fr.outer⟩)
      | none => envSetOuter fuel st fr.outer name val

/-- Mirrors Environment.set of
    src/src/interpreter/evaluator/environment.ts (lines 58-83): if the
    current frame binds the name, rebind only when mutable (an
    immutable binding is silently left unchanged); otherwise walk the
    ancestor chain the same way; only when no frame in the chain binds
    the name is a fresh binding created in the current frame. -/
def envSet (fuel : Nat) (st : EvalState) (ref : Nat) (name : String) (val : Obj)
    (isMutable : Bool) : EvalState :=
  match st.frames.get? ref with
  | none => st
  | some fr =>
    match storeLookup fr.store name with
    | some existingBinding =>
      if existingBinding.isMutable = false then st
      else updateFrame st ref ⟨storeSet fr.store name ⟨val, existingBinding.isMutable⟩, fr.outer⟩
    | none =>
      match envSetOuter fuel st fr.outer name val with
      | some st2 => st2
      | none => updateFrame st ref ⟨storeSet fr.store name ⟨val, isMutable⟩, fr.outer⟩

/-- Mirrors evalIdentifier of evaluator.ts (lines 280-298).  The
    builtins registry of src/src/core/globals.ts is consulted between
    the environment and the variant table in the source; no claim
    involves a builtin at evaluation time, so that lookup is elided. -/
def evalIdentifier (st : EvalState) (env : Nat) (name : String) : Obj :=
  match getBinding (st.frames.length + 1) st env name with
  | some b => b.value
  | none =>
    match st.variantToSumType.lookup name with
    | some sumTypeName => .variantConstructor name sumTypeName
    | none => .errorV ("identifier not found: " ++ name)

/-- Mirrors evalBangOperatorExpression of evaluator.ts. -/
def evalBangOperatorExpression (right : Obj) : Obj :=
  nativeBoolToBooleanObject (!(isTruthy right))

/-- Mirrors evalMinusPrefixOperatorExpression of evaluator.ts
    (lines 139-152). -/
def evalMinusPrefixOperatorExpression (right : Obj) : Obj :=
  if objType right ≠ "Integer" ∧ objType right ≠ "Double" then
    .errorV ("unknown operator: -" ++ objType right)
  else
    match right with
    | .double q => .double (-q)
    | .integer n => .integer (-n)
    | _ => .nullV

/-- Mirrors evalPrefixExpression of evaluator.ts (lines 120-133). -/
def evalPrefixExpression (operator : String) (right : Obj) : Obj :=
  if operator = "!" then evalBangOperatorExpression right
  else if operator = "-" then evalMinusPrefixOperatorExpression right
  else .errorV ("unknown operator: " ++ operator ++ objType right)

/-- Mirrors evalNumericInfixExpression of evaluator.ts (lines 154-187):
    returns either a raw number (inl, later floored or boxed by the
    caller) or a ready object (comparison result or error). -/
def evalNumericInfixExpression (operator : String) (leftVal rightVal : ℚ) : ℚ ⊕ Obj :=
  if operator = "+" then .inl (leftVal + rightVal)
  else if operator = "-" then .inl (leftVal - rightVal)
  else if operator = "*" then .inl (leftVal * rightVal)
  else if operator = "/" then
    if rightVal = 0 then .inr (.errorV "division by zero")
    else .inl (leftVal / rightVal)
  else if operator = "<" then .inr (nativeBoolToBooleanObject (leftVal < rightVal))
  else if operator = ">" then .inr (nativeBoolToBooleanObject (leftVal > rightVal))
  else if operator = ">=" then .inr (nativeBoolToBooleanObject (leftVal ≥ rightVal))
  else if operator = "<=" then .inr (nativeBoolToBooleanObject (leftVal ≤ rightVal))
  else if operator = "==" then .inr (nativeBoolToBooleanObject (leftVal = rightVal))
  else if operator = "!=" then .inr (nativeBoolToBooleanObject (!(leftVal = rightVal)))
  else .inr (.errorV ("unknown operator: " ++ toString leftVal ++ " " ++ operator
    ++ " " ++ toString rightVal))

/-- String comparison of the JS relational operators on the string
    branch of evalInfixExpression, idealized as character-list
    lexicographic order (JS compares UTF-16 units). -/
def strLt (a b : String) : Bool := decide (a < b)

/-- Mirrors evalInfixExpression of evaluator.ts (lines 189-262).  The
    fall-through equality at lines 255-256 compares object references
    in the source; reference identity has no counterpart on pure
    values, and no claim exercises it, so that case yields a marker
    error here. -/
def evalInfixExpression (operator : String) (left right : Obj) : Obj :=
  let leftType := objType left
  let rightType := objType right
  if (leftType = "Integer" ∨ leftType = "Double")
      ∧ (rightType = "Integer" ∨ rightType = "Double") then
    let leftVal := numberValue left
    let rightVal := numberValue right
    if operator = "%" then
      if ¬(leftType = "Integer" ∧ rightType = "Integer") then
        .errorV ("operator \x27%\x27 cannot be applied to types " ++ leftType
          ++ " and " ++ rightType)
      else if rightVal = 0 then .errorV "modulo by zero"
      else .integer (Int.tmod (intValue left) (intValue right))
    else
      match evalNumericInfixExpression operator leftVal rightVal with
      | .inr o => o
      | .inl result =>
        if leftType = "Double" ∨ rightType = "Double" then .double result
        else .integer ⌊result⌋
  else if leftType = "String" ∧ rightType = "String" then
    match left, right with
    | .stringV lv, .stringV rv =>
      if operator = "+" then .stringV (lv ++ rv)
      else if operator = "==" then nativeBoolToBooleanObject (lv = rv)
      else if operator = "!=" then nativeBoolToBooleanObject (!(lv = rv))
      else if operator = "<" then nativeBoolToBooleanObject (strLt lv rv)
      else if operator = "<=" then nativeBoolToBooleanObject (strLt lv rv || lv = rv)
      else if operator = ">" then nativeBoolToBooleanObject (strLt rv lv)
      else if operator = ">=" then nativeBoolToBooleanObject (strLt rv lv || lv = rv)
      else .errorV ("unknown operator: " ++ leftType ++ " " ++ operator ++ " " ++ rightType)
    | _, _ => .nullV
  else if operator = "==" ∨ operator = "!=" then
    .errorV "object identity comparison is outside the value model"
  else if leftType ≠ rightType then
    .errorV ("type mismatch: " ++ leftType ++ " " ++ operator ++ " " ++ rightType)
  else .errorV ("unknown operator: " ++ leftType ++ " " ++ operator ++ " " ++ rightType)

/-- Mirrors evalHashIndexExpression of evaluator.ts (lines 363-377):
    an index without a hashKey method is unusable as a key; a key
    absent from the hash is a runtime error. -/
def evalHashIndexExpression (pairs : List (String × Obj × Obj)) (index : Obj) : Obj :=
  match hashKeyOf index with
  | none => .errorV ("unusable as hash key: " ++ objType index)
  | some k =>
    match pairs.lookup k with
    | none => .errorV ("key not found in hash: " ++ inspect index)
    | some p => p.2

/-- Mirrors evalIndexExpression of evaluator.ts (lines 314-337): array
    and string indexing with an Integer index yield NULL when the
    index is negative or past the last element, the element otherwise;
    a Hash is dispatched to evalHashIndexExpression; any other
    combination is an error. -/
def evalIndexExpression (left index : Obj) : Obj :=
  match left, index with
  | .arrayV elements, .integer idx =>
    let maxIdx : Int := (elements.length : Int) - 1
    if idx < 0 ∨ idx > maxIdx then .nullV
    else ((elements.get? idx.toNat).getD .nullV)
  | .hashV pairs, idx => evalHashIndexExpression pairs idx
  | .stringV s, .integer idx =>
    let maxIdx : Int := (s.length : Int) - 1
    if idx < 0 ∨ idx > maxIdx then .nullV
    else
      match s.data.get? idx.toNat with
      | some c => .stringV (String.mk [c])
      | none => .nullV
  | l, _ => .errorV ("index operator not supported for " ++ objType l)

/-- The statement loop of evalBlockStatement of evaluator.ts
    (lines 94-110): evaluate statements in order, returning early on a
    RETURN_VALUE or ERROR result. -/
def evalBlockGo (evalF : Node → Nat → EvalState → Obj × EvalState) :
    List Node → Nat → Obj → EvalState → Obj × EvalState
  | [], _, result, st => (result, st)
  | statement :: rest, env, _, st =>
    let r := evalF statement env st
    let rt := objType r.1
    if rt = "RETURN_VALUE" ∨ rt = "ERROR" then r
    else evalBlockGo evalF rest env r.1 r.2

/-- Mirrors evalBlockStatement of evaluator.ts (lines 94-110), with
    the recursive evaluator abstracted as evalF. -/
def evalBlockStatementF (evalF : Node → Nat → EvalState → Obj × EvalState)
    (statements : List Node) (env : Nat) (st : EvalState) : Obj × EvalState :=
  evalBlockGo evalF statements env .nullV st

/-- The argument loop of evalExpressions of evaluator.ts
    (lines 300-312): evaluate in order; the first error aborts the
    list (the source returns a singleton error list, modelled by the
    inr case). -/
def evalExpressionsGo (evalF : Node → EvalState → Obj × EvalState) :
    List Node → List Obj → EvalState → (List Obj ⊕ Obj) × EvalState
  | [], acc, st => (.inl acc.reverse, st)
  | e :: rest, acc, st =>
    let r := evalF e st
    if isErrorObj r.1 then (.inr r.1, r.2)
    else evalExpressionsGo evalF rest (r.1 :: acc) r.2

/-- Mirrors applyFunction of evaluator.ts (lines 30-75), with the
    recursive evaluator abstracted as evalF.  A record constructor
    builds a Record from the parameter names and arguments; an
    ordinary function gets a fresh frame extending its closure frame,
    binds the parameters through Environment.set, evaluates the body
    and unwraps a ReturnValue; a variant constructor builds a
    SumInstance.  The LumenBuiltin branch is not modelled (no claim
    reaches it). -/
def applyFunctionF (evalF : Node → Nat → EvalState → Obj × EvalState)
    (fn : Obj) (args : List Obj) (st : EvalState) : Obj × EvalState :=
  match fn with
  | .functionV parameters body envRef isRecordConstructor recordName =>
    if isRecordConstructor then
      (.recordV recordName (parameters.zipWith (fun p a => (p, a)) args), st)
    else
      let newRef := st.frames.length
      let st1 : EvalState := { st with frames := st.frames ++ [⟨[], some envRef⟩] }
      if parameters.length ≠ args.length then
        (.errorV ("Function expected " ++ toString parameters.length
          ++ " arguments but got " ++ toString args.length), st1)
      else
        let st2 := (parameters.zip args).foldl
          (fun s pa => envSet (s.frames.length + 1) s newRef pa.1 pa.2 false) st1
        let r := evalF body newRef st2
        match r.1 with
        | .returnValue v => (v, r.2)
        | _ => r
  | .variantConstructor name typeName => (.sumInstance typeName name args, st)
  | _ => (.errorV ("not a function: " ++ objType fn), st)

/-- Mirrors Eval of src/src/interpreter/evaluator/evaluator.ts
    (lines 379-783) on the Node fragment above.  Fuel decreases on
    every recursion into a subterm; environment-chain walks inside a
    step use the frame count as their own bound.  The hash
    index-assignment branch mutates a shared LumenHash object in the
    source; aliased mutation has no counterpart on pure values and no
    claim exercises it, so that branch yields a marker error. -/
def Eval : Nat → Node → Nat → EvalState → Obj × EvalState
  | 0, _, _, st => (.errorV "recursion limit exceeded", st)
  | fuel + 1, node, env, st =>
    match node with
    | .blockStmt statements =>
      evalBlockStatementF (fun n e s => Eval fuel n e s) statements env st
    | .returnStmt rv =>
      let r := Eval fuel rv env st
      if isErrorObj r.1 then r else (.returnValue r.1, r.2)
    | .letStmt isMutable name value =>
      let r := Eval fuel value env st
      if isErrorObj r.1 then r
      else
        match r.1 with
        | .returnValue v => (.returnValue v, r.2)
        | val => (.nullV, envSet (r.2.frames.length + 1) r.2 env name val isMutable)
    | .exprStmt e => Eval fuel e env st
    | .identifier v => (evalIdentifier st env v, st)
    | .integerLiteral n => (.integer n, st)
    | .doubleLiteral q => (.double q, st)
    | .booleanLiteral b => (nativeBoolToBooleanObject b, st)
    | .stringLiteral s => (.stringV s, st)
    | .arrayLiteral elems =>
      let r := evalExpressionsGo (fun n s => Eval fuel n env s) elems [] st
      match r.1 with
      | .inr err => (err, r.2)
      | .inl objs => (.arrayV objs, r.2)
    | .functionLiteral params body => (.functionV params body env false "", st)
    | .prefixExpr operator rn =>
      let r := Eval fuel rn env st
      if isErrorObj r.1 then r else (evalPrefixExpression operator r.1, r.2)
    | .infixExpr operator l rn =>
      if operator = "=" then
        let r := Eval fuel rn env st
        if isErrorObj r.1 then r
        else
          match l with
          | .identifier name =>
            match getBinding (r.2.frames.length + 1) r.2 env name with
            | none =>
              (.errorV ("cannot assign to undeclared variable \x27" ++ name ++ "\x27"), r.2)
            | some binding =>
              if binding.isMutable = false then
                (.errorV ("cannot assign to immutable variable \x27" ++ name ++ "\x27"), r.2)
              else (r.1, envSet (r.2.frames.length + 1) r.2 env name r.1 true)
          | .indexExpr _ _ =>
            (.errorV "hash index assignment is outside the value model", r.2)
          | _ => (.errorV "invalid assignment target", r.2)
      else if operator = "+=" then
        match l with
        | .identifier name =>
          match getBinding (st.frames.length + 1) st env name with
          | none =>
            (.errorV ("cannot assign to undeclared variable \x27" ++ name ++ "\x27"), st)
          | some binding =>
            if binding.isMutable = false then
              (.errorV ("cannot assign to immutable variable \x27" ++ name ++ "\x27"), st)
            else
              let r := Eval fuel rn env st
              if isErrorObj r.1 then r
              else
                let s := numberValue binding.value + numberValue r.1
                if objType binding.value = "Double" ∨ objType r.1 = "Double" then
                  (.double s, envSet (r.2.frames.length + 1) r.2 env name (.double s) true)
                else
                  (.integer ⌊s⌋,
                    envSet (r.2.frames.length + 1) r.2 env name (.integer ⌊s⌋) true)
        | _ => (.errorV "invalid assignment target", st)
      else if operator = "&&" then
        let r := Eval fuel l env st
        if isErrorObj r.1 then r
        else if isTruthy r.1 = false then r
        else Eval fuel rn env r.2
      else if operator = "||" then
        let r := Eval fuel l env st
        if isErrorObj r.1 then r
        else if isTruthy r.1 then r
        else Eval fuel rn env r.2
      else
        let rl := Eval fuel l env st
        if isErrorObj rl.1 then rl
        else
          let rr := Eval fuel rn env rl.2
          if isErrorObj rr.1 then rr
          else (evalInfixExpression operator rl.1 rr.1, rr.2)
    | .indexExpr l i =>
      let rl := Eval fuel l env st
      if isErrorObj rl.1 then rl
      else
        let ri := Eval fuel i env rl.2
        if isErrorObj ri.1 then ri
        else (evalIndexExpression rl.1 ri.1, ri.2)
    | .callExpr f args =>
      let rf := Eval fuel f env st
      if isErrorObj rf.1 then rf
      else
        let ra := evalExpressionsGo (fun n s => Eval fuel n env s) args [] rf.2
        match ra.1 with
        | .inr err => (err, ra.2)
        | .inl argVals => applyFunctionF (fun n e s => Eval fuel n e s) rf.1 argVals ra.2
    | .tryExpr l =>
      let r := Eval fuel l env st
      if isErrorObj r.1 then r
      else
        match r.1 with
        | .sumInstance typeName variantName values =>
          if typeName ≠ "Result" then
            (.errorV ("operator \x27?\x27 can only be used on a Result value, but got "
              ++ objType (.sumInstance typeName variantName values)), r.2)
          else if variantName = "Err" then
            (.returnValue (.sumInstance typeName variantName values), r.2)
          else ((values.headD (.errorV "undefined")), r.2)
        | other =>
          (.errorV ("operator \x27?\x27 can only be used on a Result value, but got "
            ++ objType other), r.2)

/-- The applyFunction of the source at a given recursion budget. -/
def applyFunction (fuel : Nat) (fn : Obj) (args : List Obj) (st : EvalState) :
    Obj × EvalState :=
  applyFunctionF (fun n e s => Eval fuel n e s) fn args st

/-! ## Lexer (the Lexer class of the interpreter, provided as
    src/unnamed/part_007, and the token module src/unnamed/part_001) -/

/-- Mirrors the Token interface of the token module; the type tag is
    the string value of the TokenType enum member. -/
structure Token where
  ttype : String
  literal : String
  line : Nat
  column : Nat
  deriving DecidableEq, Repr

/-- Mirrors the keywords map and lookupIdent of the token module. -/
def lookupIdent (ident : String) : String :=
  if ident = "fn" then "FUNCTION"
  else if ident = "let" then "LET"
  else if ident = "mut" then "MUT"
  else if ident = "type" then "TYPE"
  else if ident = "match" then "MATCH"
  else if ident = "when" then "WHEN"
  else if ident = "true" then "TRUE"
  else if ident = "false" then "FALSE"
  else if ident = "if" then "IF"
  else if ident = "else" then "ELSE"
  else if ident = "return" then "RETURN"
  else if ident = "record" then "RECORD"
  else if ident = "trait" then "TRAIT"
  else if ident = "impl" then "IMPL"
  else if ident = "for" then "FOR"
  else if ident = "module" then "MODULE"
  else if ident = "exposing" then "EXPOSING"
  else if ident = "use" then "USE"
  else if ident = "as" then "AS"
  else if ident = "Any" then "IDENT"
  else "IDENT"

/-- Mirrors the mutable fields of the Lexer class. -/
structure LexerState where
  input : List Char
  position : Nat
  readPosition : Nat
  ch : Option Char
  line : Nat
  column : Nat
  deriving Repr

/-- Mirrors Lexer.readChar (lines 21-33 of the lexer source): load the
    character at readPosition (null past the end), advance, and
    increment the column unless the loaded character is a newline. -/
def readChar (l : LexerState) : LexerState :=
  let c : Option Char :=
    if l.readPosition ≥ l.input.length then none else l.input.get? l.readPosition
  { l with
    ch := c
    position := l.readPosition
    readPosition := l.readPosition + 1
    column := if c ≠ some '\n' then l.column + 1 else l.column }

/-- Mirrors the Lexer constructor (lines 11-19): line and column start
    at 1, then the first character is read. -/
def newLexer (input : List Char) : LexerState :=
  readChar { input := input, position := 0, readPosition := 0, ch := none,
             line := 1, column := 1 }

/-- Mirrors Lexer.peekChar. -/
def peekChar (l : LexerState) : Option Char :=
  if l.readPosition ≥ l.input.length then none else l.input.get? l.readPosition

/-- Mirrors Lexer.skipWhitespace (lines 197-211): on a newline the
    line counter is incremented and the column reset to 1 before
    reading on. -/
def skipWhitespace : Nat → LexerState → LexerState
  | 0, l => l
  | fuel + 1, l =>
    if l.ch = some ' ' ∨ l.ch = some '\t' ∨ l.ch = some '\n' ∨ l.ch = some '\r'
        ∨ l.ch = some '\u00A0' then
      let l1 := if l.ch = some '\n' then { l with line := l.line + 1, column := 1 } else l
      skipWhitespace fuel (readChar l1)
    else l

/-- Mirrors Lexer.skipComment: consume to end of line or input. -/
def skipComment : Nat → LexerState → LexerState
  | 0, l => l
  | fuel + 1, l =>
    if l.ch ≠ some '\n' ∧ l.ch ≠ none then skipComment fuel (readChar l)
    else l

/-- The loop of Lexer.skipMultiLineComment (lines 44-56). -/
def skipMultiLineCommentGo : Nat → LexerState → LexerState
  | 0, l => l
  | fuel + 1, l =>
    match l.ch with
    | none => l
    | some c =>
      if c = '*' ∧ peekChar l = some '/' then readChar (readChar l)
      else
        let l1 := if c = '\n' then { l with line := l.line + 1, column := 1 } else l
        skipMultiLineCommentGo fuel (readChar l1)

/-- Mirrors Lexer.skipMultiLineComment (lines 40-57). -/
def skipMultiLineComment (fuel : Nat) (l : LexerState) : LexerState :=
  skipMultiLineCommentGo fuel (readChar (readChar l))

/-- Mirrors Lexer.isLetter. -/
def isLetterCh : Option Char → Bool
  | none => false
  | some c => ('a' ≤ c ∧ c ≤ 'z') ∨ ('A' ≤ c ∧ c ≤ 'Z') ∨ c = '_'

/-- Mirrors Lexer.isDigit. -/
def isDigitCh : Option Char → Bool
  | none => false
  | some c => '0' ≤ c ∧ c ≤ '9'

/-- The substring input[start, stop) used by readIdentifier and
    readNumber. -/
def sliceInput (input : List Char) (start stop : Nat) : String :=
  String.mk ((input.drop start).take (stop - start))

/-- The scan loop of Lexer.readIdentifier. -/
def readIdentifierGo : Nat → LexerState → LexerState
  | 0, l => l
  | fuel + 1, l =>
    if l.ch.isSome ∧ (isLetterCh l.ch ∨ isDigitCh l.ch) then
      readIdentifierGo fuel (readChar l)
    else l

/-- Mirrors Lexer.readIdentifier (lines 219-225). -/
def readIdentifier (fuel : Nat) (l : LexerState) : String × LexerState :=
  let l1 := readIdentifierGo fuel l
  (sliceInput l.input l.position l1.position, l1)

/-- The digit scan loop of Lexer.readNumber. -/
def readDigitsGo : Nat → LexerState → LexerState
  | 0, l => l
  | fuel + 1, l =>
    if l.ch.isSome ∧ isDigitCh l.ch then readDigitsGo fuel (readChar l)
    else l

/-- Mirrors Lexer.readNumber (lines 232-249): a digit run, extended to
    a double when followed by a dot and a digit. -/
def readNumber (fuel : Nat) (l : LexerState) : String × String × LexerState :=
  let l1 := readDigitsGo fuel l
  if l1.ch = some '.' ∧ (peekChar l1).isSome ∧ isDigitCh (peekChar l1) then
    let l2 := readDigitsGo fuel (readChar l1)
    (sliceInput l.input l.position l2.position, "DOUBLE", l2)
  else (sliceInput l.input l.position l1.position, "INT", l1)

/-- The loop of Lexer.readString (lines 256-287), with the escape map
    of the source. -/
def readStringGo : Nat → LexerState → List Char → String × LexerState
  | 0, l, out => (String.mk out.reverse, l)
  | fuel + 1, l, out =>
    match l.ch with
    | none => (String.mk out.reverse, l)
    | some c =>
      if c = '"' then (String.mk out.reverse, l)
      else if c = '\\' then
        let l1 := readChar l
        match l1.ch with
        | none => (String.mk (('\\' :: out).reverse), l1)
        | some next =>
          let esc : List Char :=
            if next = '"' then ['"']
            else if next = '\\' then ['\\']
            else if next = 'n' then ['\n']
            else if next = 't' then ['\t']
            else if next = 'r' then ['\r']
            else [next, '\\']
          readStringGo fuel (readChar l1) (esc ++ out)
      else readStringGo fuel (readChar l) (c :: out)

/-- The loop of Lexer.readMultiLineString (lines 169-195); note the
    column is reset to 0 on a newline here, unlike skipWhitespace. -/
def readMultiLineStringGo : Nat → LexerState → List Char → String × LexerState
  | 0, l, out => (String.mk out.reverse, l)
  | fuel + 1, l, out =>
    match l.ch with
    | none => (String.mk out.reverse, l)
    | some c =>
      if c = '"' ∧ peekChar l = some '"' ∧ l.input.get? (l.readPosition + 1) = some '"' then
        (String.mk out.reverse, readChar (readChar (readChar l)))
      else
        let l1 := if c = '\n' then { l with line := l.line + 1, column := 0 } else l
        readMultiLineStringGo fuel (readChar l1) (c :: out)

/-- The ten two-character operators, tried before single characters
    (longest first, lines 84-103 of the lexer source). -/
def twoCharLookup (s : String) : Option String :=
  if s = "==" then some "=="
  else if s = "!=" then some "!="
  else if s = ">=" then some ">="
  else if s = "<=" then some "<="
  else if s = "&&" then some "&&"
  else if s = "||" then some "||"
  else if s = "->" then some "->"
  else if s = "|>" then some "|>"
  else if s = "=>" then some "=>"
  else if s = "+=" then some "+="
  else none

/-- The single-character operator table (lines 112-134). -/
def singleCharLookup (c : Char) : Option String :=
  if c = '=' then some "="
  else if c = ';' then some ";"
  else if c = ':' then some ":"
  else if c = '(' then some "("
  else if c = ')' then some ")"
  else if c = ',' then some ","
  else if c = '+' then some "+"
  else if c = '-' then some "-"
  else if c = '!' then some "!"
  else if c = '*' then some "*"
  else if c = '/' then some "/"
  else if c = '|' then some "|"
  else if c = '%' then some "%"
  else if c = '<' then some "<"
  else if c = '>' then some ">"
  else if c = '{' then some "\x7b"
  else if c = '}' then some "\x7d"
  else if c = '.' then some "."
  else if c = '[' then some "["
  else if c = ']' then some "]"
  else if c = '?' then some "?"
  else none

/-- Mirrors Lexer.nextToken (lines 59-167).  The token records the
    line and column as they stand after skipping whitespace, before
    consuming the token text.  Fuel feeds the restart after a comment
    and the inner scan loops (the input length plus one always
    suffices). -/
def nextToken : Nat → LexerState → Token × LexerState
  | 0, l => (⟨"ILLEGAL", "", l.line, l.column⟩, l)
  | fuel + 1, l0 =>
    let l := skipWhitespace (l0.input.length + 1) l0
    match l.ch with
    | none => (⟨"EOF", "", l.line, l.column⟩, l)
    | some c =>
      let startLine := l.line
      let startCol := l.column
      if c = '/' ∧ peekChar l = some '/' then
        nextToken fuel (skipComment (l.input.length + 1) l)
      else if c = '/' ∧ peekChar l = some '*' then
        nextToken fuel (skipMultiLineComment (l.input.length + 1) l)
      else
        let two := String.mk (c :: (match peekChar l with | some p => [p] | none => []))
        match twoCharLookup two with
        | some tt => (⟨tt, two, startLine, startCol⟩, readChar (readChar l))
        | none =>
          if c = '.' ∧ peekChar l = some '.' ∧ l.input.get? (l.readPosition + 1) = some '.' then
            (⟨"...", "...", startLine, startCol⟩, readChar (readChar (readChar l)))
          else
            match singleCharLookup c with
            | some tt => (⟨tt, String.mk [c], startLine, startCol⟩, readChar l)
            | none =>
              if isLetterCh (some c) then
                let r := readIdentifier (l.input.length + 1) l
                (⟨lookupIdent r.1, r.1, startLine, startCol⟩, r.2)
              else if isDigitCh (some c) then
                let r := readNumber (l.input.length + 1) l
                (⟨r.2.1, r.1, startLine, startCol⟩, r.2.2)
              else if c = '"' then
                if peekChar l = some '"' ∧ l.input.get? (l.readPosition + 1) = some '"' then
                  let r := readMultiLineStringGo (l.input.length + 1)
                    (readChar (readChar (readChar l))) []
                  (⟨"STRING", r.1, startLine, startCol⟩, r.2)
                else
                  let l1 := readChar l
                  let r := readStringGo (l.input.length + 1) l1 []
                  (⟨"STRING", r.1, startLine, startCol⟩, readChar r.2)
              else (⟨"ILLEGAL", String.mk [c], startLine, startCol⟩, readChar l)

/-! ## Module loader (src/src/loader.ts) -/

/-- A loaded module of the cache.  The program, type environment and
    value environment of the source LoadedModule are summarized by the
    list of modules the program uses: that is all the load discipline
    of ModuleLoader.load depends on. -/
structure LModule where
  deps : List String
  deriving DecidableEq, Repr

/-- The two caches of a ModuleLoader (src/src/loader.ts lines 31-38):
    the loaded-module map and the loading stack for cycle
    detection. -/
structure LoaderState where
  cache : List (String × LModule)
  stack : List String
  deriving DecidableEq, Repr

/-- Result of load: a loaded module or an Error with its message. -/
inductive LoadResult where
  | ok (m : LModule)
  | err (message : String)
  deriving DecidableEq, Repr

/-- The static module universe load runs against: for a user module
    name, the list of modules its program uses plus whether its
    evaluation fails at runtime (none stands for an unreadable file),
    and the set of native module names of the stdlib registry. -/
structure ModuleDefs where
  source : String → Option (List String × Bool)
  natives : List String

/-- The dependency loads a module performs while being checked or
    evaluated (the use statements call loader.load in order and stop
    at the first failure), abstracted over the recursive load. -/
def loadDepsF (loadF : String → LoaderState → LoadResult × LoaderState) :
    List String → LoaderState → Option String × LoaderState
  | [], st => (none, st)
  | dep :: rest, st =>
    match loadF dep st with
    | (.err e, st1) => (some e, st1)
    | (.ok _, st1) => loadDepsF loadF rest st1

/-- Mirrors ModuleLoader.loadNativeModule (lines 68-101): native
    modules are built from the in-memory registry, cached and
    returned; the seeded environments are not observable by the
    claims and are summarized by an empty dependency list. -/
def loadNativeModule (name : String) (st : LoaderState) : LoadResult × LoaderState :=
  let m : LModule := ⟨[]⟩
  (.ok m, { st with cache := (name, m) :: st.cache })

/-- Mirrors ModuleLoader.loadUserModule (lines 103-149): read the
    file (an unreadable file is an error), type-check the program
    (loading every used module; a failure is returned as the type
    error), cache the module, evaluate it (the use statements load
    again, normally hitting the cache), and on a runtime error delete
    the cache entry and return the error.  Lexing, parsing and the
    environments are below the level of the load discipline and are
    not modelled. -/
def loadUserModuleF (loadF : String → LoaderState → LoadResult × LoaderState)
    (defs : ModuleDefs) (name : String) (st : LoaderState) : LoadResult × LoaderState :=
  match defs.source name with
  | none => (.err ("Error: Could not read module file: " ++ name ++ ".lu"), st)
  | some d =>
    match loadDepsF loadF d.1 st with
    | (some e, st1) => (.err e, st1)
    | (none, st1) =>
      let m : LModule := ⟨d.1⟩
      let st2 : LoaderState := { st1 with cache := (name, m) :: st1.cache }
      match loadDepsF loadF d.1 st2 with
      | (some e, st3) =>
        (.err e, { st3 with cache := st3.cache.filter (fun p => p.1 ≠ name) })
      | (none, st3) =>
        if d.2 then
          (.err "runtime error",
            { st3 with cache := st3.cache.filter (fun p => p.1 ≠ name) })
        else (.ok m, st3)

/-- Mirrors ModuleLoader.load (src/src/loader.ts lines 46-66): a
    cached module is returned as is; a module already on the loading
    stack is a circular-dependency error naming the chain; otherwise
    the name is pushed, the native or user loader runs, and the
    finally clause pops the stack whatever the outcome. -/
def load (fuel : Nat) (defs : ModuleDefs) (name : String) (st : LoaderState) :
    LoadResult × LoaderState :=
  match fuel with
  | 0 => (.err "recursion limit exceeded", st)
  | fuel + 1 =>
    match st.cache.lookup name with
    | some m => (.ok m, st)
    | none =>
      if name ∈ st.stack then
        (.err ("Circular dependency detected: "
          ++ String.intercalate " -> " (st.stack ++ [name])), st)
      else
        let st1 : LoaderState := { st with stack := st.stack ++ [name] }
        let r :=
          if name ∈ defs.natives then loadNativeModule name st1
          else loadUserModuleF (fun n s => load fuel defs n s) defs name st1
        (r.1, { r.2 with stack := r.2.stack.dropLast })

/-- The operand shapes of mixed numeric arithmetic: each operand is an
    Integer or a Double object, at least one of them a Double, paired
    with their numeric values. -/
inductive MixedDouble : Obj → Obj → ℚ → ℚ → Prop where
  | intDouble (n : Int) (q : ℚ) : MixedDouble (.integer n) (.double q) (n : ℚ) q
  | doubleInt (q : ℚ) (n : Int) : MixedDouble (.double q) (.integer n) q (n : ℚ)
  | doubleDouble (p q : ℚ) : MixedDouble (.double p) (.double q) p q

/-! ## Helper lemmas -/

/-- Mapping a function that fixes every element of a list is the
    identity. -/
theorem mapSelf {α : Type} (l : List α) (f : α → α) (h : ∀ a ∈ l, f a = a) :
    l.map f = l := by
  induction l with
  | nil => rfl
  | cons x xs ih =>
    simp only [List.map_cons]
    rw [h x (by simp), ih (fun a ha => h a (by simp [ha]))]

/-- On a ground type, substitute is the identity for every fuel and
    every substitution map. -/
theorem substitute_ground {t : LType} (hg : Ground t) :
    ∀ fuel σ, substitute fuel σ t = t := by
  induction hg with
  | integer => intro fuel σ; cases fuel <;> rfl
  | double => intro fuel σ; cases fuel <;> rfl
  | boolean => intro fuel σ; cases fuel <;> rfl
  | stringT => intro fuel σ; cases fuel <;> rfl
  | nullT => intro fuel σ; cases fuel <;> rfl
  | anyT => intro fuel σ; cases fuel <;> rfl
  | errorT m => intro fuel σ; cases fuel <;> rfl
  | moduleT n => intro fuel σ; cases fuel <;> rfl
  | arrayT _ ih =>
    intro fuel σ
    cases fuel with
    | zero => rfl
    | succ n => simp [substitute, ih n σ]
  | hashT _ _ _ _ =>
    intro fuel σ; cases fuel <;> rfl
  | tupleT _ ih =>
    intro fuel σ
    cases fuel with
    | zero => rfl
    | succ n =>
      simp only [substitute]
      rw [mapSelf _ _ (fun e he => ih e he n σ)]
  | fnT _ _ ihp ihr =>
    intro fuel σ
    cases fuel with
    | zero => rfl
    | succ n =>
      simp only [substitute]
      rw [mapSelf _ _ (fun p hp => ihp p hp n σ), ihr n σ]
  | sumT h1 _ _ iha ihv =>
    intro fuel σ
    cases fuel with
    | zero => rfl
    | succ n =>
      simp only [substitute]
      rename_i nm tps targs vars _ _
      cases targs with
      | nil =>
        rw [h1 rfl]
        simp only [List.length_nil, List.map_nil, gt_iff_lt, lt_irrefl, if_false]
        rw [mapSelf _ _ (fun v hv => by
          rw [mapSelf _ _ (fun p hp => ihv v hv p hp n σ)])]
      | cons a as =>
        simp only [List.length_cons, gt_iff_lt, Nat.succ_pos, if_true]
        rw [mapSelf _ _ (fun x hx => iha x hx n σ)]
        rw [mapSelf _ _ (fun v hv => by
          rw [mapSelf _ _ (fun p hp => ihv v hv p hp n σ)])]
  | recordT h1 _ _ iha ihf =>
    intro fuel σ
    cases fuel with
    | zero => rfl
    | succ n =>
      simp only [substitute]
      rename_i nm fs tps targs _ _
      cases targs with
      | nil =>
        rw [h1 rfl]
        simp only [List.length_nil, List.map_nil, gt_iff_lt, lt_irrefl, if_false]
        rw [mapSelf _ _ (fun f hf => by rw [ihf f hf n σ])]
      | cons a as =>
        simp only [List.length_cons, gt_iff_lt, Nat.succ_pos, if_true]
        rw [mapSelf _ _ (fun f hf => by rw [ihf f hf n σ])]
        rw [mapSelf _ _ (fun x hx => iha x hx n σ)]
  | traitT h1 _ iha =>
    intro fuel σ
    cases fuel with
    | zero => rfl
    | succ n =>
      simp only [substitute]
      rw [mapSelf _ _ (fun x hx => iha x hx n σ)]
  | variantT _ _ ihp ihparent =>
    intro fuel σ
    cases fuel with
    | zero => rfl
    | succ n =>
      simp only [substitute]
      rw [mapSelf _ _ (fun p hp => ihp p hp n σ), ihparent n σ]

/-- A ground type is never a type variable. -/
theorem Ground.not_tvar {t : LType} (hg : Ground t) : t.kind ≠ .TYPE_VARIABLE := by
  cases hg <;> simp [LType.kind]

/-- Only anyT has kind ANY. -/
theorem kind_eq_any {t : LType} (h : t.kind = .ANY) : t = .anyT := by
  cases t <;> simp_all [LType.kind]

/-- Only double has kind DOUBLE. -/
theorem kind_eq_double {t : LType} (h : t.kind = .DOUBLE) : t = .double := by
  cases t <;> simp_all [LType.kind]

/-- Only integer has kind INTEGER. -/
theorem kind_eq_integer {t : LType} (h : t.kind = .INTEGER) : t = .integer := by
  cases t <;> simp_all [LType.kind]

/-- A type of kind ARRAY is an array type. -/
theorem kind_eq_array {t : LType} (h : t.kind = .ARRAY) : ∃ e, t = .arrayT e := by
  cases t <;> simp_all [LType.kind]

/-- A type of kind HASH is a hash type. -/
theorem kind_eq_hash {t : LType} (h : t.kind = .HASH) : ∃ k v, t = .hashT k v := by
  cases t <;> simp_all [LType.kind]

/-- A type of kind FUNCTION is a function type. -/
theorem kind_eq_fn {t : LType} (h : t.kind = .FUNCTION) :
    ∃ ps ret tps, t = .fnT ps ret tps := by
  cases t <;> simp_all [LType.kind]

/-- A type of kind TUPLE is a tuple type. -/
theorem kind_eq_tuple {t : LType} (h : t.kind = .TUPLE) : ∃ es, t = .tupleT es := by
  cases t <;> simp_all [LType.kind]

/-- Kinds not matched by any structural branch of unifyCore are the
    opaque ones. -/
theorem opaqueKind_of_not (k : TypeKind) (h1 : k ≠ .ANY) (h2 : k ≠ .TYPE_VARIABLE)
    (h3 : k ≠ .ARRAY) (h4 : k ≠ .HASH)
    (h5 : ¬(k = .SUM_TYPE ∨ k = .RECORD ∨ k = .TRAIT))
    (h6 : k ≠ .FUNCTION) (h7 : k ≠ .TUPLE) : opaqueKind k = true := by
  cases k <;> simp_all [opaqueKind]

/-- Elements of the argument list unify compares for a ground Sum,
    Record or Trait are themselves ground and structurally smaller. -/
theorem unifyArgList_ground {t : LType} (hg : Ground t) :
    ∀ a ∈ unifyArgList t, Ground a ∧ sizeOf a < sizeOf t := by
  intro a hmem
  cases t with
  | sumT n tps targs vars =>
    cases hg with
    | sumT h1 ha hv =>
      simp only [unifyArgList] at hmem
      cases targs with
      | nil => rw [h1 rfl] at hmem; simp at hmem
      | cons x xs =>
        rw [if_pos (by simp)] at hmem
        refine ⟨ha a hmem, ?_⟩
        have hs := List.sizeOf_lt_of_mem hmem
        simp only [LType.sumT.sizeOf_spec]
        omega
  | recordT n fs tps targs =>
    cases hg with
    | recordT h1 ha hf =>
      simp only [unifyArgList] at hmem
      cases targs with
      | nil => rw [h1 rfl] at hmem; simp at hmem
      | cons x xs =>
        rw [if_pos (by simp)] at hmem
        refine ⟨ha a hmem, ?_⟩
        have hs := List.sizeOf_lt_of_mem hmem
        simp only [LType.recordT.sizeOf_spec]
        omega
  | traitT n tps targs =>
    cases hg with
    | traitT h1 ha =>
      simp only [unifyArgList] at hmem
      cases targs with
      | nil => rw [h1 rfl] at hmem; simp at hmem
      | cons x xs =>
        rw [if_pos (by simp)] at hmem
        refine ⟨ha a hmem, ?_⟩
        have hs := List.sizeOf_lt_of_mem hmem
        simp only [LType.traitT.sizeOf_spec]
        omega
  | integer => simp [unifyArgList] at hmem
  | double => simp [unifyArgList] at hmem
  | boolean => simp [unifyArgList] at hmem
  | stringT => simp [unifyArgList] at hmem
  | nullT => simp [unifyArgList] at hmem
  | anyT => simp [unifyArgList] at hmem
  | errorT m => simp [unifyArgList] at hmem
  | moduleT n => simp [unifyArgList] at hmem
  | tvar n => simp [unifyArgList] at hmem
  | arrayT e => simp [unifyArgList] at hmem
  | hashT k v => simp [unifyArgList] at hmem
  | tupleT es => simp [unifyArgList] at hmem
  | fnT ps r tps => simp [unifyArgList] at hmem
  | variantT n ps parent => simp [unifyArgList] at hmem

/-- Once a component fails, the pairwise unification fold keeps the
    failure and the map unchanged. -/
theorem foldl_unifyPair_false (f : LType → LType → Subst → Bool × Subst) :
    ∀ (l : List (LType × LType)) (σ : Subst),
      l.foldl (unifyPair f) (false, σ) = (false, σ) := by
  intro l σ
  induction l with
  | nil => rfl
  | cons p rest ih =>
    simp only [List.foldl_cons, unifyPair, Bool.false_eq_true, if_false]
    exact ih

/-- Soundness of the pairwise unification loops on ground components:
    the substitution map is returned unchanged, and success implies
    componentwise compatibility. -/
theorem unifyList_ground_sound (fuel : Nat)
    (IH : ∀ a b σ rr σ2, Ground a → Ground b → sizeOf a ≤ fuel → sizeOf b ≤ fuel →
      unify fuel a b σ = (rr, σ2) → σ2 = σ ∧ (rr = true → Compat a b)) :
    ∀ (pairs : List (LType × LType)) (σ : Subst) (rr : Bool) (σ2 : Subst),
      (∀ p ∈ pairs, Ground p.1 ∧ Ground p.2 ∧ sizeOf p.1 ≤ fuel ∧ sizeOf p.2 ≤ fuel) →
      pairs.foldl (unifyPair (fun a b σ3 => unify fuel a b σ3)) (true, σ) = (rr, σ2) →
      σ2 = σ ∧ (rr = true → ∀ p ∈ pairs, Compat p.1 p.2) := by
  intro pairs
  induction pairs with
  | nil =>
    intro σ rr σ2 _ h
    simp only [List.foldl_nil] at h
    cases h
    exact ⟨rfl, by simp⟩
  | cons p rest ih =>
    intro σ rr σ2 hall h
    simp only [List.foldl_cons] at h
    have hp := hall p (by simp)
    rcases hstep : unify fuel p.1 p.2 σ with ⟨r1, σ1⟩
    rw [show unifyPair (fun a b σ3 => unify fuel a b σ3) (true, σ) p
        = unify fuel p.1 p.2 σ from by simp [unifyPair]] at h
    rw [hstep] at h
    have hmain := IH p.1 p.2 σ r1 σ1 hp.1 hp.2.1 hp.2.2.1 hp.2.2.2 hstep
    cases r1 with
    | false =>
      rw [foldl_unifyPair_false] at h
      cases h
      exact ⟨hmain.1, by simp⟩
    | true =>
      obtain ⟨heq, hc⟩ := hmain
      rw [heq] at h
      have hrec := ih σ rr σ2 (fun q hq => hall q (by simp [hq])) h
      refine ⟨hrec.1, fun hr q hq => ?_⟩
      rcases List.mem_cons.mp hq with rfl | hq2
      · exact hc rfl
      · exact hrec.2 hr q hq2

/-- Soundness of unify on ground inputs: the substitution map comes
    back untouched, and success implies relaxed structural
    compatibility of the two types. -/
theorem unify_ground_sound :
    ∀ (fuel : Nat) (a b : LType) (σ : Subst) (rr : Bool) (σ2 : Subst),
      Ground a → Ground b → sizeOf a ≤ fuel → sizeOf b ≤ fuel →
      unify fuel a b σ = (rr, σ2) → σ2 = σ ∧ (rr = true → Compat a b) := by
  intro fuel
  induction fuel with
  | zero =>
    intro a b σ rr σ2 _ _ _ _ h
    simp only [unify] at h
    cases h
    exact ⟨rfl, by simp⟩
  | succ n IH =>
    intro a b σ rr σ2 hga hgb hsa hsb h
    rw [show unify (n + 1) a b σ
        = unifyCore (fun x y σ3 => unify n x y σ3) a b σ from by
      simp only [unify]
      rw [substitute_ground hga, substitute_ground hgb]] at h
    unfold unifyCore at h
    by_cases hany : a.kind = .ANY ∨ b.kind = .ANY
    · rw [if_pos hany] at h
      cases h
      refine ⟨rfl, fun _ => ?_⟩
      rcases hany with h1 | h1
      · rw [kind_eq_any h1]; exact Compat.any_left b
      · rw [kind_eq_any h1]; exact Compat.any_right a
    · rw [if_neg hany] at h
      push_neg at hany
      have hva : ¬a.kind = .TYPE_VARIABLE := Ground.not_tvar hga
      have hvb : ¬b.kind = .TYPE_VARIABLE := Ground.not_tvar hgb
      rw [if_neg hva, if_neg hvb] at h
      by_cases hdi : a.kind = .DOUBLE ∧ b.kind = .INTEGER
      · rw [if_pos hdi] at h
        cases h
        refine ⟨rfl, fun _ => ?_⟩
        rw [kind_eq_double hdi.1, kind_eq_integer hdi.2]
        exact Compat.double_integer
      · rw [if_neg hdi] at h
        by_cases hkk : a.kind ≠ b.kind
        · rw [if_pos hkk] at h
          cases h
          exact ⟨rfl, by simp⟩
        · rw [if_neg hkk] at h
          have hkeq : a.kind = b.kind := not_not.mp hkk
          by_cases hka : a.kind = .ARRAY
          · rw [if_pos hka] at h
            obtain ⟨e1, rfl⟩ := kind_eq_array hka
            obtain ⟨e2, rfl⟩ := kind_eq_array (hkeq ▸ hka)
            simp only [elementTypeOf] at h
            cases hga with | arrayT hge1 =>
            cases hgb with | arrayT hge2 =>
            simp only [LType.arrayT.sizeOf_spec] at hsa hsb
            have := IH e1 e2 σ rr σ2 hge1 hge2 (by omega) (by omega) h
            exact ⟨this.1, fun hr => Compat.arrayT (this.2 hr)⟩
          · rw [if_neg hka] at h
            by_cases hkh : a.kind = .HASH
            · rw [if_pos hkh] at h
              obtain ⟨k1, v1, rfl⟩ := kind_eq_hash hkh
              obtain ⟨k2, v2, rfl⟩ := kind_eq_hash (hkeq ▸ hkh)
              simp only [hashKeyTypeOf, hashValueTypeOf] at h
              cases hga with | hashT hgk1 hgv1 =>
              cases hgb with | hashT hgk2 hgv2 =>
              simp only [LType.hashT.sizeOf_spec] at hsa hsb
              rcases hkstep : unify n k1 k2 σ with ⟨rk, σk⟩
              rw [hkstep] at h
              have hk := IH k1 k2 σ rk σk hgk1 hgk2 (by omega) (by omega) hkstep
              cases rk with
              | false =>
                cases h
                exact ⟨hk.1, by simp⟩
              | true =>
                obtain ⟨heq, hck⟩ := hk
                rw [heq] at h
                have hv := IH v1 v2 σ rr σ2 hgv1 hgv2 (by omega) (by omega) h
                exact ⟨hv.1, fun hr => Compat.hashT (hck rfl) (hv.2 hr)⟩
            · rw [if_neg hkh] at h
              by_cases hkn : a.kind = .SUM_TYPE ∨ a.kind = .RECORD ∨ a.kind = .TRAIT
              · rw [if_pos hkn] at h
                by_cases hnm : nameOf a ≠ nameOf b
                · rw [if_pos hnm] at h
                  cases h
                  exact ⟨rfl, by simp⟩
                · rw [if_neg hnm] at h
                  by_cases hlen : (unifyArgList a).length ≠ (unifyArgList b).length
                  · rw [if_pos hlen] at h
                    cases h
                    exact ⟨rfl, by simp⟩
                  · rw [if_neg hlen] at h
                    have hpairs : ∀ p ∈ (unifyArgList a).zip (unifyArgList b),
                        Ground p.1 ∧ Ground p.2 ∧ sizeOf p.1 ≤ n ∧ sizeOf p.2 ≤ n := by
                      intro p hp
                      obtain ⟨h1, h2⟩ := List.of_mem_zip hp
                      have ha1 := unifyArgList_ground hga p.1 h1
                      have hb1 := unifyArgList_ground hgb p.2 h2
                      exact ⟨ha1.1, hb1.1, by omega, by omega⟩
                    have := unifyList_ground_sound n IH _ σ rr σ2 hpairs h
                    refine ⟨this.1, fun hr =>
                      Compat.named hkn hkeq (not_not.mp hnm) (not_not.mp hlen)
                        (this.2 hr)⟩
              · rw [if_neg hkn] at h
                by_cases hkf : a.kind = .FUNCTION
                · rw [if_pos hkf] at h
                  obtain ⟨ps1, r1, tps1, rfl⟩ := kind_eq_fn hkf
                  obtain ⟨ps2, r2, tps2, rfl⟩ := kind_eq_fn (hkeq ▸ hkf)
                  simp only [fnParamsOf, fnReturnOf] at h
                  cases hga with | fnT hgp1 hgr1 =>
                  cases hgb with | fnT hgp2 hgr2 =>
                  simp only [LType.fnT.sizeOf_spec] at hsa hsb
                  by_cases hlen : ps1.length ≠ ps2.length
                  · rw [if_pos hlen] at h
                    cases h
                    exact ⟨rfl, by simp⟩
                  · rw [if_neg hlen] at h
                    have hpairs : ∀ p ∈ ps1.zip ps2,
                        Ground p.1 ∧ Ground p.2 ∧ sizeOf p.1 ≤ n ∧ sizeOf p.2 ≤ n := by
                      intro p hp
                      obtain ⟨h1, h2⟩ := List.of_mem_zip hp
                      have s1 := List.sizeOf_lt_of_mem h1
                      have s2 := List.sizeOf_lt_of_mem h2
                      exact ⟨hgp1 p.1 h1, hgp2 p.2 h2, by omega, by omega⟩
                    rcases hfold : (ps1.zip ps2).foldl
                        (unifyPair (fun x y σ3 => unify n x y σ3)) (true, σ) with ⟨rf, σf⟩
                    rw [hfold] at h
                    have hl := unifyList_ground_sound n IH _ σ rf σf hpairs hfold
                    cases rf with
                    | false =>
                      cases h
                      exact ⟨hl.1, by simp⟩
                    | true =>
                      obtain ⟨heq, hcp⟩ := hl
                      rw [heq] at h
                      have hret := IH r1 r2 σ rr σ2 hgr1 hgr2 (by omega) (by omega) h
                      exact ⟨hret.1, fun hr =>
                        Compat.fnT (not_not.mp hlen) (hcp rfl) (hret.2 hr)⟩
                · rw [if_neg hkf] at h
                  by_cases hkt : a.kind = .TUPLE
                  · rw [if_pos hkt] at h
                    obtain ⟨es1, rfl⟩ := kind_eq_tuple hkt
                    obtain ⟨es2, rfl⟩ := kind_eq_tuple (hkeq ▸ hkt)
                    simp only [tupleElemsOf] at h
                    cases hga with | tupleT hge1 =>
                    cases hgb with | tupleT hge2 =>
                    simp only [LType.tupleT.sizeOf_spec] at hsa hsb
                    by_cases hlen : es1.length ≠ es2.length
                    · rw [if_pos hlen] at h
                      cases h
                      exact ⟨rfl, by simp⟩
                    · rw [if_neg hlen] at h
                      have hpairs : ∀ p ∈ es1.zip es2,
                          Ground p.1 ∧ Ground p.2 ∧ sizeOf p.1 ≤ n ∧ sizeOf p.2 ≤ n := by
                        intro p hp
                        obtain ⟨h1, h2⟩ := List.of_mem_zip hp
                        have s1 := List.sizeOf_lt_of_mem h1
                        have s2 := List.sizeOf_lt_of_mem h2
                        exact ⟨hge1 p.1 h1, hge2 p.2 h2, by omega, by omega⟩
                      have hl := unifyList_ground_sound n IH _ σ rr σ2 hpairs h
                      exact ⟨hl.1, fun hr =>
                        Compat.tupleT (not_not.mp hlen) (hl.2 hr)⟩
                  · rw [if_neg hkt] at h
                    cases h
                    refine ⟨rfl, fun _ => ?_⟩
                    exact Compat.opaque_kinds hkeq
                      (opaqueKind_of_not a.kind hany.1 hva hka hkh hkn hkf hkt)


/-! ## Claim theorems -/

/-- C2, counterexample: unify(Double, Integer, empty) succeeds (the
    one-directional numeric relaxation), yet substituting both sides
    with the resulting map leaves Double and Integer, which are not
    structurally equal. -/
theorem c2_unify_substitute_counterexample :
    unify 2 LType.double LType.integer [] = (true, [])
    ∧ substitute 2 [] LType.double = LType.double
    ∧ substitute 2 [] LType.integer = LType.integer
    ∧ LType.double ≠ LType.integer :=
  ⟨rfl, rfl, rfl, fun h => LType.noConfusion h⟩

/-- C2, amended: if unify(a, b, sigma) succeeds on types free of type
    variables (with enough fuel for the recursion depth), the
    substitution map is returned unchanged and the substituted forms
    substitute(a, sigma) and substitute(b, sigma) are structurally
    equal up to the relaxations unify implements: Any matches any
    type, a Double on the left accepts an Integer on the right, and
    the kinds unify does not decompose are identified by kind alone. -/
theorem c2_unify_ground_relaxed_equality :
    ∀ (a b : LType) (σ : Subst) (fuel : Nat),
      Ground a → Ground b → sizeOf a ≤ fuel → sizeOf b ≤ fuel →
      (unify fuel a b σ).1 = true →
      (unify fuel a b σ).2 = σ
      ∧ Compat (substitute fuel ((unify fuel a b σ).2) a)
          (substitute fuel ((unify fuel a b σ).2) b) := by
  intro a b σ fuel hga hgb hsa hsb hr
  rcases h : unify fuel a b σ with ⟨r, σ2⟩
  rw [h] at hr
  have hs := unify_ground_sound fuel a b σ r σ2 hga hgb hsa hsb h
  refine ⟨hs.1, ?_⟩
  rw [show ((r, σ2).2 : Subst) = σ2 from rfl]
  rw [substitute_ground hga, substitute_ground hgb]
  exact hs.2 (by simpa using hr)

/-- Witness for c2_unify_ground_relaxed_equality: unifying
    Array of Double against Array of Integer succeeds without touching
    the map, and the two arrays are compatible componentwise. -/
theorem c2_unify_ground_relaxed_equality_witness :
    (unify 9 (LType.arrayT .double) (LType.arrayT .integer) []).2 = []
    ∧ Compat
        (substitute 9 ((unify 9 (LType.arrayT .double) (LType.arrayT .integer) []).2)
          (LType.arrayT .double))
        (substitute 9 ((unify 9 (LType.arrayT .double) (LType.arrayT .integer) []).2)
          (LType.arrayT .integer)) :=
  c2_unify_ground_relaxed_equality (LType.arrayT .double) (LType.arrayT .integer) [] 9
    (Ground.arrayT Ground.double) (Ground.arrayT Ground.integer)
    (by simp) (by simp) rfl

/-- C1, counterexample: with x bound immutably to 1, evaluating the
    assignment x = 2 is not a silent no-op: the evaluator returns the
    runtime error value (the binding does keep its value). -/
theorem c1_assign_immutable_counterexample :
    Eval 9 (.infixExpr "=" (.identifier "x") (.integerLiteral 2)) 0
        ⟨[⟨[("x", ⟨.integer 1, false⟩)], none⟩], []⟩
      = (.errorV "cannot assign to immutable variable \x27x\x27",
         ⟨[⟨[("x", ⟨.integer 1, false⟩)], none⟩], []⟩) := rfl

/-- C1, amended: evaluating x = v where x resolves to an immutable
    binding yields the runtime error value named after x and leaves
    the store exactly as the evaluation of v left it; the silent
    no-op lives only inside Environment.set, which returns the store
    unchanged when the binding it finds in the current frame is
    immutable (the evaluator checks mutability before ever calling
    set). -/
theorem c1_assign_immutable_runtime_error :
    (∀ (fuel : Nat) (st st1 : EvalState) (env : Nat) (name : String) (rhs : Node)
        (v : Obj) (b : Binding),
      Eval fuel rhs env st = (v, st1) → isErrorObj v = false →
      getBinding (st1.frames.length + 1) st1 env name = some b → b.isMutable = false →
      Eval (fuel + 1) (.infixExpr "=" (.identifier name) rhs) env st
        = (.errorV ("cannot assign to immutable variable \x27" ++ name ++ "\x27"), st1))
    ∧ (∀ (fuel : Nat) (st : EvalState) (ref : Nat) (fr : Frame) (name : String)
        (v : Obj) (mu : Bool) (ex : Binding),
      st.frames.get? ref = some fr → storeLookup fr.store name = some ex →
      ex.isMutable = false → envSet fuel st ref name v mu = st) := by
  constructor
  · intro fuel st st1 env name rhs v b h hv hb hm
    simp only [Eval, h]
    simp [hv, hb, hm]
  · intro fuel st ref fr name v mu ex h1 h2 h3
    simp only [envSet, h1, h2]
    simp [h3]

/-- Witness for c1_assign_immutable_runtime_error at a one-frame store
    binding y immutably to 5. -/
theorem c1_assign_immutable_runtime_error_witness :
    Eval 2 (.infixExpr "=" (.identifier "y") (.integerLiteral 7)) 0
        ⟨[⟨[("y", ⟨.integer 5, false⟩)], none⟩], []⟩
      = (.errorV "cannot assign to immutable variable \x27y\x27",
         ⟨[⟨[("y", ⟨.integer 5, false⟩)], none⟩], []⟩)
    ∧ envSet 3 ⟨[⟨[("y", ⟨.integer 5, false⟩)], none⟩], []⟩ 0 "y" (.integer 7) true
      = ⟨[⟨[("y", ⟨.integer 5, false⟩)], none⟩], []⟩ :=
  ⟨c1_assign_immutable_runtime_error.1 1 _ _ 0 "y" (.integerLiteral 7) (.integer 7)
      ⟨.integer 5, false⟩ rfl rfl rfl rfl,
    c1_assign_immutable_runtime_error.2 3 _ 0 ⟨[("y", ⟨.integer 5, false⟩)], none⟩ "y"
      (.integer 7) true ⟨.integer 5, false⟩ rfl rfl rfl⟩

/-- C5, counterexample: the argument expression 5 is well typed (its
    type is Integer), yet len(5) does not type-check with result
    Integer: the call checker special-cases len and rejects any
    argument whose type is not an Array or String. -/
theorem c5_len_counterexample :
    check 2 (.callE (.identE "len") [.intLit 5]) ⟨[], []⟩ none
      = .errorT "argument to \x27len\x27 must be an Array or String, but got Integer"
    ∧ check 2 (.callE (.identE "len") [.intLit 5]) ⟨[], []⟩ none ≠ .integer := by
  refine ⟨rfl, ?_⟩
  intro h
  rw [show check 2 (.callE (.identE "len") [.intLit 5]) ⟨[], []⟩ none
      = .errorT "argument to \x27len\x27 must be an Array or String, but got Integer"
      from rfl] at h
  exact LType.noConfusion h

/-- C5, amended: the builtin table does register len with type
    (Any) -> Integer, but checkCallExpression intercepts every call
    whose callee is the identifier len: with exactly one argument
    whose (non-error) type kind is ARRAY or STRING the call checks
    with result Integer, and with any argument of another kind it
    returns a semantic error. -/
theorem c5_len_array_or_string :
    builtinTypes.lookup "len" = some (.fnT [.anyT] .integer [])
    ∧ (∀ (fuel : Nat) (env : TypeEnv) (e : TExpr) (t : LType),
        check fuel e env none = t → t.kind ≠ .ERROR →
        ((t.kind = .ARRAY ∨ t.kind = .STRING →
            check (fuel + 1) (.callE (.identE "len") [e]) env none = .integer)
        ∧ (t.kind ≠ .ARRAY → t.kind ≠ .STRING →
            (check (fuel + 1) (.callE (.identE "len") [e]) env none).kind = .ERROR))) := by
  refine ⟨rfl, ?_⟩
  intro fuel env e t h ht
  have hcall : check (fuel + 1) (.callE (.identE "len") [e]) env none
      = checkCallExpressionF (fun e2 env2 exp2 => check fuel e2 env2 exp2) fuel
          (.identE "len") [e] env := rfl
  have hbody : checkCallExpressionF (fun e2 env2 exp2 => check fuel e2 env2 exp2) fuel
      (.identE "len") [e] env
      = (if t.kind = .ERROR then t
         else if t.kind ≠ .ARRAY ∧ t.kind ≠ .STRING then
           .errorT ("argument to \x27len\x27 must be an Array or String, but got "
             ++ tyToString fuel t)
         else .integer) := by
    unfold checkCallExpressionF
    simp only [List.headD_cons, List.length_cons, List.length_nil]
    rw [show check fuel e env none = t from h]
    simp
  constructor
  · intro hk
    rw [hcall, hbody, if_neg ht, if_neg (by rcases hk with hk | hk <;> simp [hk])]
  · intro hk1 hk2
    rw [hcall, hbody, if_neg ht, if_pos ⟨hk1, hk2⟩]
    rfl

/-- Witness for c5_len_array_or_string: len of a String literal checks
    to Integer; len of a Boolean literal is a semantic error. -/
theorem c5_len_array_or_string_witness :
    check 2 (.callE (.identE "len") [.strLit "ab"]) ⟨[], []⟩ none = .integer
    ∧ (check 2 (.callE (.identE "len") [.boolLit true]) ⟨[], []⟩ none).kind = .ERROR :=
  ⟨(c5_len_array_or_string.2 1 ⟨[], []⟩ (.strLit "ab") .stringT rfl
      (fun h => TypeKind.noConfusion h)).1 (Or.inr rfl),
    (c5_len_array_or_string.2 1 ⟨[], []⟩ (.boolLit true) .boolean rfl
      (fun h => TypeKind.noConfusion h)).2
      (fun h => TypeKind.noConfusion h) (fun h => TypeKind.noConfusion h)⟩

/-- C6: the lexer does not produce 1-based columns.  The constructor
    initializes column to 1 and skipWhitespace resets it to 1 on a
    newline, but readChar increments the column as it loads each
    character, so the first token of every line carries column 2 (here
    on the input a-newline-b both identifier tokens are at column 2
    although each starts its line). -/
theorem c6_lexer_column_off_by_one :
    (nextToken 9 (newLexer ("a\nb".data))).1 = ⟨"IDENT", "a", 1, 2⟩
    ∧ (nextToken 9 (nextToken 9 (newLexer ("a\nb".data))).2).1 = ⟨"IDENT", "b", 2, 2⟩
    ∧ (newLexer ("a\nb".data)).column = 2 :=
  ⟨rfl, rfl, rfl⟩

/-- C8: array indexing with an Integer index never fails: out of
    bounds (negative or at least the length) yields Null, in bounds
    yields the element; string indexing behaves the same way (a
    one-character string); hash indexing with a hashable key that is
    not present yields a runtime error value. -/
theorem c8_index_never_fails :
    (∀ (elements : List Obj) (i : Int),
      ((i < 0 ∨ (elements.length : Int) ≤ i) →
        evalIndexExpression (.arrayV elements) (.integer i) = .nullV)
      ∧ (∀ (j : Nat) (x : Obj), i = (j : Int) → elements.get? j = some x →
          evalIndexExpression (.arrayV elements) (.integer i) = x))
    ∧ (∀ (s : List Char) (i : Int),
      ((i < 0 ∨ (s.length : Int) ≤ i) →
        evalIndexExpression (.stringV (String.mk s)) (.integer i) = .nullV)
      ∧ (∀ (j : Nat) (c : Char), i = (j : Int) → s.get? j = some c →
          evalIndexExpression (.stringV (String.mk s)) (.integer i)
            = .stringV (String.mk [c])))
    ∧ (∀ (pairs : List (String × Obj × Obj)) (index : Obj) (k : String),
        hashKeyOf index = some k → pairs.lookup k = none →
        isErrorObj (evalHashIndexExpression pairs index) = true) := by
  refine ⟨?_, ?_, ?_⟩
  · intro elements i
    constructor
    · intro hoob
      simp only [evalIndexExpression]
      rw [if_pos (by omega)]
    · intro j x hij hget
      have hj : j < elements.length := (List.get?_eq_some.mp hget).1
      subst hij
      rw [List.get?_eq_getElem?] at hget
      simp only [evalIndexExpression]
      rw [if_neg (by omega)]
      simp [hget]
  · intro s i
    constructor
    · intro hoob
      simp only [evalIndexExpression]
      rw [if_pos (by simp only [String.length]; omega)]
    · intro j c hij hget
      have hj : j < s.length := (List.get?_eq_some.mp hget).1
      subst hij
      rw [List.get?_eq_getElem?] at hget
      simp only [evalIndexExpression]
      rw [if_neg (by simp only [String.length]; omega)]
      simp [hget]
  · intro pairs index k hk hmiss
    simp [evalHashIndexExpression, hk, hmiss, isErrorObj]

/-- Witness for c8_index_never_fails on concrete inputs: index 5 of a
    two-element array is Null, index 1 yields the element, index 0 of
    the string ab is the string a, and a lookup in the empty hash is
    an error value. -/
theorem c8_index_never_fails_witness :
    evalIndexExpression (.arrayV [.integer 10, .integer 20]) (.integer 5) = .nullV
    ∧ evalIndexExpression (.arrayV [.integer 10, .integer 20]) (.integer 1) = .integer 20
    ∧ evalIndexExpression (.stringV (String.mk ['a', 'b'])) (.integer 0)
        = .stringV (String.mk ['a'])
    ∧ isErrorObj (evalHashIndexExpression [] (.integer 1)) = true :=
  ⟨(c8_index_never_fails.1 [.integer 10, .integer 20] 5).1 (Or.inr (by norm_num)),
    (c8_index_never_fails.1 [.integer 10, .integer 20] 1).2 1 (.integer 20) rfl rfl,
    (c8_index_never_fails.2.1 ['a', 'b'] 0).2 0 'a' rfl rfl,
    c8_index_never_fails.2.2 [] (.integer 1) "INTEGER_1" rfl rfl⟩

/-- C9, counterexample: the modulo operator with a Double operand is a
    runtime error, not an exact Double result, and division with a
    Double operand and zero divisor is a runtime error too. -/
theorem c9_double_arith_counterexample :
    evalInfixExpression "%" (.double 7) (.integer 2)
      = .errorV "operator \x27%\x27 cannot be applied to types Double and Integer"
    ∧ evalInfixExpression "/" (.double 1) (.integer 0) = .errorV "division by zero" :=
  ⟨rfl, rfl⟩

/-- C9, amended: integer division with nonzero divisor yields the
    floor of the exact quotient (rounding toward negative infinity);
    addition, subtraction, multiplication and division (with nonzero
    divisor) with at least one Double operand yield the exact Double
    result unfloored; the modulo operator is integer-only and yields a
    runtime error value when a Double operand is involved. -/
theorem c9_numeric_semantics :
    (∀ (a b : Int), b ≠ 0 →
      evalInfixExpression "/" (.integer a) (.integer b) = .integer ⌊(a : ℚ) / (b : ℚ)⌋)
    ∧ (∀ (l r : Obj) (x y : ℚ), MixedDouble l r x y →
      evalInfixExpression "+" l r = .double (x + y)
      ∧ evalInfixExpression "-" l r = .double (x - y)
      ∧ evalInfixExpression "*" l r = .double (x * y)
      ∧ (y ≠ 0 → evalInfixExpression "/" l r = .double (x / y))
      ∧ isErrorObj (evalInfixExpression "%" l r) = true) := by
  constructor
  · intro a b hb
    have hbq : ((b : ℚ)) ≠ 0 := by exact_mod_cast hb
    simp [evalInfixExpression, evalNumericInfixExpression, objType, numberValue,
      intValue, hbq]
  · intro l r x y hm
    cases hm with
    | intDouble n q =>
      refine ⟨?_, ?_, ?_, fun hy => ?_, ?_⟩ <;>
        simp [evalInfixExpression, evalNumericInfixExpression, objType, numberValue,
          isErrorObj, *]
    | doubleInt q n =>
      refine ⟨?_, ?_, ?_, fun hy => ?_, ?_⟩ <;>
        simp [evalInfixExpression, evalNumericInfixExpression, objType, numberValue,
          isErrorObj, *]
    | doubleDouble p q =>
      refine ⟨?_, ?_, ?_, fun hy => ?_, ?_⟩ <;>
        simp [evalInfixExpression, evalNumericInfixExpression, objType, numberValue,
          isErrorObj, *]

/-- Witness for c9_numeric_semantics: 7 / 2 evaluates to 3, -7 / 2 to
    -4, and 2.5 times 2 to the Double 5. -/
theorem c9_numeric_semantics_witness :
    evalInfixExpression "/" (.integer 7) (.integer 2) = .integer 3
    ∧ evalInfixExpression "/" (.integer (-7)) (.integer 2) = .integer (-4)
    ∧ evalInfixExpression "*" (.double (5 / 2)) (.integer 2) = .double 5 := by
  refine ⟨?_, ?_, ?_⟩
  · rw [c9_numeric_semantics.1 7 2 (by omega)]
    norm_num
  · rw [c9_numeric_semantics.1 (-7) 2 (by omega)]
    norm_num
  · rw [(c9_numeric_semantics.2 (.double (5 / 2)) (.integer 2) (5 / 2) 2
      (MixedDouble.doubleInt (5 / 2) 2)).2.2.1]
    norm_num

/-- C3: the try operator propagates Results.  Evaluating Ok(v)? (a
    try whose operand evaluates to an Ok instance) yields the payload
    v and evaluation continues in the same state; evaluating Err(e)?
    wraps the Err instance in a ReturnValue; a ReturnValue produced by
    a statement stops the enclosing block before the remaining
    statements run; and a function whose first statement evaluates
    Err(e)? therefore returns Err(e) as its call result, for every
    list of remaining body statements (which are never executed). -/
theorem c3_try_propagation :
    (∀ (fuel : Nat) (e : Node) (env : Nat) (st st1 : EvalState) (v : Obj) (vs : List Obj),
      Eval fuel e env st = (.sumInstance "Result" "Ok" (v :: vs), st1) →
      Eval (fuel + 1) (.tryExpr e) env st = (v, st1))
    ∧ (∀ (fuel : Nat) (e : Node) (env : Nat) (st st1 : EvalState) (vals : List Obj),
      Eval fuel e env st = (.sumInstance "Result" "Err" vals, st1) →
      Eval (fuel + 1) (.tryExpr e) env st
        = (.returnValue (.sumInstance "Result" "Err" vals), st1))
    ∧ (∀ (f : Node → Nat → EvalState → Obj × EvalState) (stmt : Node) (rest : List Node)
        (env : Nat) (st st1 : EvalState) (rv : Obj),
      f stmt env st = (.returnValue rv, st1) →
      evalBlockStatementF f (stmt :: rest) env st = (.returnValue rv, st1))
    ∧ (∀ (fuel : Nat) (errPayload : Obj) (rest : List Node)
        (vmap : List (String × String)),
      applyFunction (fuel + 7)
        (.functionV ["x"]
          (.blockStmt (.letStmt false "h" (.tryExpr (.identifier "x")) :: rest))
          0 false "")
        [.sumInstance "Result" "Err" [errPayload]]
        ⟨[⟨[], none⟩], vmap⟩
        = (.sumInstance "Result" "Err" [errPayload],
            ⟨[⟨[], none⟩,
              ⟨[("x", ⟨.sumInstance "Result" "Err" [errPayload], false⟩)], some 0⟩],
              vmap⟩)) := by
  refine ⟨?_, ?_, ?_, ?_⟩
  · intro fuel e env st st1 v vs h
    simp only [Eval, h]
    simp [isErrorObj]
  · intro fuel e env st st1 vals h
    simp only [Eval, h]
    simp [isErrorObj]
  · intro f stmt rest env st st1 rv h
    simp only [evalBlockStatementF, evalBlockGo, h]
    simp [objType]
  · intro fuel errPayload rest vmap
    rfl

/-- Witness for c3_try_propagation: Ok(5)? read from a binding yields
    5, and a function whose body starts with x? applied to Err("boom")
    returns the Err instance although the body has one more statement. -/
theorem c3_try_propagation_witness :
    Eval 2 (.tryExpr (.identifier "y")) 0
      ⟨[⟨[("y", ⟨.sumInstance "Result" "Ok" [.integer 5], false⟩)], none⟩], []⟩
      = (.integer 5,
          ⟨[⟨[("y", ⟨.sumInstance "Result" "Ok" [.integer 5], false⟩)], none⟩], []⟩)
    ∧ applyFunction 7
        (.functionV ["x"]
          (.blockStmt [.letStmt false "h" (.tryExpr (.identifier "x")),
            .exprStmt (.integerLiteral 0)]) 0 false "")
        [.sumInstance "Result" "Err" [.stringV "boom"]]
        ⟨[⟨[], none⟩], []⟩
        = (.sumInstance "Result" "Err" [.stringV "boom"],
            ⟨[⟨[], none⟩,
              ⟨[("x", ⟨.sumInstance "Result" "Err" [.stringV "boom"], false⟩)], some 0⟩],
              []⟩) :=
  ⟨c3_try_propagation.1 1 (.identifier "y") 0 _ _ (.integer 5) [] rfl,
    c3_try_propagation.2.2.2 0 (.stringV "boom") [.exprStmt (.integerLiteral 0)] []⟩

/-- If every call of loadF preserves the loading stack, so does the
    dependency loop. -/
theorem loadDepsF_stack (loadF : String → LoaderState → LoadResult × LoaderState)
    (hF : ∀ n s, ((loadF n s).2).stack = s.stack) :
    ∀ (deps : List String) (st : LoaderState),
      ((loadDepsF loadF deps st).2).stack = st.stack := by
  intro deps
  induction deps with
  | nil => intro st; rfl
  | cons d rest ih =>
    intro st
    have h1 : ((loadF d st).2).stack = st.stack := hF d st
    simp only [loadDepsF]
    rcases hr : loadF d st with ⟨r, st1⟩
    rw [hr] at h1
    cases r with
    | err e => exact h1
    | ok m =>
      rw [ih st1]
      exact h1

/-- If every call of loadF preserves the loading stack, loadUserModule
    does too: it only touches the cache. -/
theorem loadUserModuleF_stack (loadF : String → LoaderState → LoadResult × LoaderState)
    (hF : ∀ n s, ((loadF n s).2).stack = s.stack)
    (defs : ModuleDefs) (name : String) (st : LoaderState) :
    ((loadUserModuleF loadF defs name st).2).stack = st.stack := by
  simp only [loadUserModuleF]
  split
  · rfl
  · rename_i d hsrc
    have h1 := loadDepsF_stack loadF hF d.1 st
    split
    · rename_i e st1 hd1
      rw [hd1] at h1
      exact h1
    · rename_i st1 hd1
      rw [hd1] at h1
      have h2 := loadDepsF_stack loadF hF d.1
        ({ st1 with cache := (name, ⟨d.1⟩) :: st1.cache } : LoaderState)
      split
      · rename_i e st3 hd2
        rw [hd2] at h2
        exact h2.trans h1
      · rename_i st3 hd2
        rw [hd2] at h2
        split
        · exact h2.trans h1
        · exact h2.trans h1

/-- load leaves the loading stack as it found it, at every fuel. -/
theorem load_stack :
    ∀ (fuel : Nat) (defs : ModuleDefs) (name : String) (st : LoaderState),
      ((load fuel defs name st).2).stack = st.stack := by
  intro fuel
  induction fuel with
  | zero => intro defs name st; rfl
  | succ fuel ih =>
    intro defs name st
    rcases hc : st.cache.lookup name with _ | m
    · by_cases hs : name ∈ st.stack
      · simp [load, hc, hs]
      · by_cases hn : name ∈ defs.natives
        · simp [load, hc, hs, hn, loadNativeModule, List.dropLast_concat]
        · have h := loadUserModuleF_stack (fun n s => load fuel defs n s)
            (fun n s => ih defs n s) defs name
            ({ st with stack := st.stack ++ [name] } : LoaderState)
          simp [load, hc, hs, hn, h, List.dropLast_concat]
    · simp [load, hc]

/-- C7: the loader returns a cached module as is without rerunning any
    load work (the whole loader state is unchanged); a module already
    on the loading stack yields a circular-dependency error naming the
    chain of modules joined by arrows; and in every case, success or
    failure, the loading stack after load returns equals the stack
    before the call. -/
theorem c7_loader_cache_cycle_stack :
    (∀ (fuel : Nat) (defs : ModuleDefs) (name : String) (st : LoaderState) (m : LModule),
      st.cache.lookup name = some m →
      load (fuel + 1) defs name st = (.ok m, st))
    ∧ (∀ (fuel : Nat) (defs : ModuleDefs) (name : String) (st : LoaderState),
      st.cache.lookup name = none → name ∈ st.stack →
      load (fuel + 1) defs name st
        = (.err ("Circular dependency detected: "
            ++ String.intercalate " -> " (st.stack ++ [name])), st))
    ∧ (∀ (fuel : Nat) (defs : ModuleDefs) (name : String) (st : LoaderState),
      ((load fuel defs name st).2).stack = st.stack) := by
  refine ⟨?_, ?_, ?_⟩
  · intro fuel defs name st m h
    simp [load, h]
  · intro fuel defs name st h1 h2
    simp [load, h1, h2]
  · exact load_stack

/-- Witness for c7_loader_cache_cycle_stack: a cache hit returns the
    cached module with the state untouched, a name already on the
    stack produces the chain-naming cycle error, and a failing load
    leaves the stack unchanged. -/
theorem c7_loader_cache_cycle_stack_witness :
    load 5 ⟨fun _ => none, []⟩ "m" ⟨[("m", ⟨[]⟩)], ["a"]⟩
      = (.ok ⟨[]⟩, ⟨[("m", ⟨[]⟩)], ["a"]⟩)
    ∧ load 5 ⟨fun _ => none, []⟩ "a" ⟨[], ["a", "b"]⟩
        = (.err ("Circular dependency detected: "
            ++ String.intercalate " -> " (["a", "b"] ++ ["a"])), ⟨[], ["a", "b"]⟩)
    ∧ ((load 3 ⟨fun _ => none, []⟩ "q" ⟨[], ["a"]⟩).2).stack = ["a"] :=
  ⟨c7_loader_cache_cycle_stack.1 4 ⟨fun _ => none, []⟩ "m" ⟨[("m", ⟨[]⟩)], ["a"]⟩ ⟨[]⟩ rfl,
    c7_loader_cache_cycle_stack.2.1 4 ⟨fun _ => none, []⟩ "a" ⟨[], ["a", "b"]⟩ rfl
      (by simp),
    c7_loader_cache_cycle_stack.2.2 3 ⟨fun _ => none, []⟩ "q" ⟨[], ["a"]⟩⟩

/-- The ancestor loop of Environment.set agrees with getBindingFrame:
    if no ancestor frame binds the name the loop yields none, and if
    the walk finds the binding at frame i the loop leaves the state
    unchanged for an immutable binding and rebinds exactly at frame i
    for a mutable one. -/
theorem envSetOuter_spec :
    ∀ (fuel : Nat) (st : EvalState) (p : Nat) (name : String) (v : Obj),
      (getBindingFrame fuel st p name = none →
        envSetOuter fuel st (some p) name v = none)
      ∧ (∀ (i : Nat) (b : Binding), getBindingFrame fuel st p name = some (i, b) →
          ∃ fri, st.frames.get? i = some fri
            ∧ storeLookup fri.store name = some b
            ∧ envSetOuter fuel st (some p) name v
              = (if b.isMutable = false then some st
                 else some (updateFrame st i
                     ⟨storeSet fri.store name ⟨v, b.isMutable⟩, fri.outer⟩))) := by
  intro fuel
  induction fuel with
  | zero =>
    intro st p name v
    exact ⟨fun _ => rfl, fun i b hb => by simp [getBindingFrame] at hb⟩
  | succ fuel ih =>
    intro st p name v
    rcases hfp : st.frames.get? p with _ | fr
    · refine ⟨fun _ => ?_, fun i b hb => ?_⟩
      · simp only [envSetOuter, hfp]
      · simp only [getBindingFrame, hfp] at hb
        exact Option.noConfusion hb
    · rcases hsl : storeLookup fr.store name with _ | b0
      · rcases hout : fr.outer with _ | o
        · refine ⟨fun _ => ?_, fun i b hb => ?_⟩
          · simp only [envSetOuter, hfp, hsl, hout]
          · simp only [getBindingFrame, hfp, hsl, hout] at hb
            exact Option.noConfusion hb
        · refine ⟨fun hnone => ?_, fun i b hb => ?_⟩
          · simp only [getBindingFrame, hfp, hsl, hout] at hnone
            simp only [envSetOuter, hfp, hsl, hout]
            exact (ih st o name v).1 hnone
          · simp only [getBindingFrame, hfp, hsl, hout] at hb
            obtain ⟨fri, hfri, hlk, he⟩ := (ih st o name v).2 i b hb
            refine ⟨fri, hfri, hlk, ?_⟩
            simp only [envSetOuter, hfp, hsl, hout]
            exact he
      · refine ⟨fun hnone => ?_, fun i b hb => ?_⟩
        · simp only [getBindingFrame, hfp, hsl] at hnone
          exact Option.noConfusion hnone
        · simp only [getBindingFrame, hfp, hsl, Option.some.injEq,
            Prod.mk.injEq] at hb
          obtain ⟨rfl, rfl⟩ := hb
          exact ⟨fr, hfp, hsl, by simp only [envSetOuter, hfp, hsl]⟩

/-- C10: Environment.set never overwrites an immutable binding and
    never shadows.  With the current frame fr at index ref: if no
    frame of the chain binds the name, set creates a fresh binding in
    the current frame; if the chain binds it immutably at some frame,
    the whole state is left unchanged (no new binding is created); if
    the chain binds it mutably at frame i, set rebinds exactly at
    frame i. -/
theorem c10_env_set_discipline :
    ∀ (fuel : Nat) (st : EvalState) (ref : Nat) (name : String) (v : Obj)
      (mu : Bool) (fr : Frame),
      st.frames.get? ref = some fr →
      ((getBindingFrame (fuel + 1) st ref name = none →
         envSet fuel st ref name v mu
           = updateFrame st ref ⟨storeSet fr.store name ⟨v, mu⟩, fr.outer⟩)
       ∧ (∀ (i : Nat) (b : Binding),
           getBindingFrame (fuel + 1) st ref name = some (i, b) →
           b.isMutable = false →
           envSet fuel st ref name v mu = st)
       ∧ (∀ (i : Nat) (b : Binding),
           getBindingFrame (fuel + 1) st ref name = some (i, b) →
           b.isMutable = true →
           ∃ fri, st.frames.get? i = some fri
             ∧ storeLookup fri.store name = some b
             ∧ envSet fuel st ref name v mu
               = updateFrame st i ⟨storeSet fri.store name ⟨v, true⟩, fri.outer⟩)) := by
  intro fuel st ref name v mu fr h
  rcases hsl : storeLookup fr.store name with _ | b0
  · rcases hout : fr.outer with _ | o
    · refine ⟨fun _ => ?_, fun i b hb _ => ?_, fun i b hb _ => ?_⟩
      · simp only [envSet, h, hsl, hout, envSetOuter]
      · simp only [getBindingFrame, h, hsl, hout] at hb
        exact Option.noConfusion hb
      · simp only [getBindingFrame, h, hsl, hout] at hb
        exact Option.noConfusion hb
    · have hspec := envSetOuter_spec fuel st o name v
      refine ⟨fun hnone => ?_, fun i b hb hmu => ?_, fun i b hb hmu => ?_⟩
      · simp only [getBindingFrame, h, hsl, hout] at hnone
        have he := hspec.1 hnone
        simp only [envSet, h, hsl, hout, he]
      · simp only [getBindingFrame, h, hsl, hout] at hb
        obtain ⟨fri, hfri, hlk, he⟩ := hspec.2 i b hb
        rw [if_pos hmu] at he
        simp only [envSet, h, hsl, hout, he]
      · simp only [getBindingFrame, h, hsl, hout] at hb
        obtain ⟨fri, hfri, hlk, he⟩ := hspec.2 i b hb
        rw [if_neg (by rw [hmu]; simp)] at he
        rw [hmu] at he
        refine ⟨fri, hfri, hlk, ?_⟩
        simp only [envSet, h, hsl, hout, he]
  · refine ⟨fun hnone => ?_, fun i b hb hmu => ?_, fun i b hb hmu => ?_⟩
    · simp only [getBindingFrame, h, hsl] at hnone
      exact Option.noConfusion hnone
    · simp only [getBindingFrame, h, hsl, Option.some.injEq, Prod.mk.injEq] at hb
      obtain ⟨rfl, rfl⟩ := hb
      simp only [envSet, h, hsl]
      rw [if_pos hmu]
    · simp only [getBindingFrame, h, hsl, Option.some.injEq, Prod.mk.injEq] at hb
      obtain ⟨rfl, rfl⟩ := hb
      refine ⟨fr, h, hsl, ?_⟩
      simp only [envSet, h, hsl]
      rw [if_neg (by rw [hmu]; simp), hmu]

/-- Witness for c10_env_set_discipline on a two-frame chain (frame 0
    binds a mutably and c immutably, frame 1 is the current frame):
    setting an unbound z creates it in frame 1, setting the immutable
    c leaves the state unchanged, and setting the mutable a rebinds at
    frame 0. -/
theorem c10_env_set_discipline_witness :
    (envSet 2
        ⟨[⟨[("a", ⟨.integer 1, true⟩), ("c", ⟨.integer 7, false⟩)], none⟩,
          ⟨[], some 0⟩], []⟩ 1 "z" (.integer 9) true
      = updateFrame
          ⟨[⟨[("a", ⟨.integer 1, true⟩), ("c", ⟨.integer 7, false⟩)], none⟩,
            ⟨[], some 0⟩], []⟩ 1 ⟨storeSet [] "z" ⟨.integer 9, true⟩, some 0⟩)
    ∧ (envSet 2
        ⟨[⟨[("a", ⟨.integer 1, true⟩), ("c", ⟨.integer 7, false⟩)], none⟩,
          ⟨[], some 0⟩], []⟩ 1 "c" (.integer 9) true
      = ⟨[⟨[("a", ⟨.integer 1, true⟩), ("c", ⟨.integer 7, false⟩)], none⟩,
          ⟨[], some 0⟩], []⟩)
    ∧ (∃ fri,
        (⟨[⟨[("a", ⟨.integer 1, true⟩), ("c", ⟨.integer 7, false⟩)], none⟩,
          ⟨[], some 0⟩], []⟩ : EvalState).frames.get? 0 = some fri
        ∧ storeLookup fri.store "a" = some ⟨.integer 1, true⟩
        ∧ envSet 2
            ⟨[⟨[("a", ⟨.integer 1, true⟩), ("c", ⟨.integer 7, false⟩)], none⟩,
              ⟨[], some 0⟩], []⟩ 1 "a" (.integer 9) true
          = updateFrame
              ⟨[⟨[("a", ⟨.integer 1, true⟩), ("c", ⟨.integer 7, false⟩)], none⟩,
                ⟨[], some 0⟩], []⟩ 0
              ⟨storeSet fri.store "a" ⟨.integer 9, true⟩, fri.outer⟩) :=
  ⟨(c10_env_set_discipline 2
      ⟨[⟨[("a", ⟨.integer 1, true⟩), ("c", ⟨.integer 7, false⟩)], none⟩,
        ⟨[], some 0⟩], []⟩ 1 "z" (.integer 9) true ⟨[], some 0⟩ rfl).1 rfl,
    (c10_env_set_discipline 2
      ⟨[⟨[("a", ⟨.integer 1, true⟩), ("c", ⟨.integer 7, false⟩)], none⟩,
        ⟨[], some 0⟩], []⟩ 1 "c" (.integer 9) true ⟨[], some 0⟩ rfl).2.1 0
      ⟨.integer 7, false⟩ rfl rfl,
    (c10_env_set_discipline 2
      ⟨[⟨[("a", ⟨.integer 1, true⟩), ("c", ⟨.integer 7, false⟩)], none⟩,
        ⟨[], some 0⟩], []⟩ 1 "a" (.integer 9) true ⟨[], some 0⟩ rfl).2.2 0
      ⟨.integer 1, true⟩ rfl rfl⟩

/-- Every error value produced by the kind-directed pattern branch of
    an arm has ERROR kind. -/
theorem checkMatchArmByKind_inl_kind
    (checkF : TExpr → TypeEnv → Option LType → LType) (uF : Nat)
    (env : TypeEnv) (vt : LType) (pat : MPattern) (err : LType)
    (h : checkMatchArmByKind checkF uF env vt pat = .inl err) :
    err.kind = .ERROR := by
  simp only [checkMatchArmByKind] at h
  repeat' split at h
  all_goals first
    | (exact Sum.noConfusion h)
    | (injection h with h2
       subst h2
       simp_all [LType.kind])

/-- Every error value produced by one arm iteration has ERROR kind. -/
theorem checkMatchArm_inl_kind
    (checkF : TExpr → TypeEnv → Option LType → LType) (uF : Nat) (env : TypeEnv)
    (vt : LType) (expected : Option LType) (arm : MPattern × TExpr)
    (st : MatchArmState) (err : LType)
    (h : checkMatchArm checkF uF env vt expected arm st = .inl err) :
    err.kind = .ERROR := by
  simp only [checkMatchArm] at h
  repeat' split at h
  all_goals first
    | (exact Sum.noConfusion h)
    | (rename_i heq
       injection h with h2
       subst h2
       repeat' split at heq
       all_goals first
         | (exact Sum.noConfusion heq)
         | (injection heq with h3
            subst h3
            simp_all [LType.kind])
         | (exact checkMatchArmByKind_inl_kind _ _ _ _ _ _ heq))
    | (injection h with h2
       subst h2
       simp_all [LType.kind])

/-- Every error value the arm loop stops at has ERROR kind. -/
theorem checkMatchArms_inl_kind
    (checkF : TExpr → TypeEnv → Option LType → LType) (uF : Nat) (env : TypeEnv)
    (vt : LType) (expected : Option LType) :
    ∀ (arms : List (MPattern × TExpr)) (st : MatchArmState) (err : LType),
      checkMatchArms checkF uF env vt expected arms st = .inl err →
      err.kind = .ERROR := by
  intro arms
  induction arms with
  | nil =>
    intro st err h
    exact absurd h (by simp [checkMatchArms])
  | cons a rest ih =>
    intro st err h
    simp only [checkMatchArms] at h
    split at h
    · rename_i e heq
      injection h with h2
      subst h2
      exact checkMatchArm_inl_kind checkF uF env vt expected a st _ heq
    · rename_i st2 heq
      exact ih st2 err h

/-- Membership in the set produced by insertIfAbsent. -/
theorem insertIfAbsent_mem (l : List String) (n x : String) :
    x ∈ insertIfAbsent l n ↔ x ∈ l ∨ x = n := by
  unfold insertIfAbsent
  split
  · rename_i hmem
    constructor
    · exact fun h => Or.inl h
    · rintro (h | rfl)
      · exact h
      · exact hmem
  · simp

/-- insertIfAbsent keeps the covered set duplicate free. -/
theorem insertIfAbsent_nodup (l : List String) (n : String) (h : l.Nodup) :
    (insertIfAbsent l n).Nodup := by
  unfold insertIfAbsent
  split
  · exact h
  · rename_i hmem
    simp [List.nodup_append, h, hmem]

/-- With no wildcard among the arms, the exhaustiveness scan reports
    no wildcard. -/
theorem coveredScan_no_wildcard :
    ∀ (arms : List (MPattern × TExpr)) (acc : List String),
      (∀ a ∈ arms, a.1 ≠ MPattern.wildcard) →
      (coveredScan arms acc).1 = false := by
  intro arms
  induction arms with
  | nil => intro acc _; rfl
  | cons a rest ih =>
    intro acc hnw
    rcases a with ⟨p, e⟩
    cases p with
    | wildcard => exact absurd rfl (hnw (MPattern.wildcard, e) (by simp))
    | variantP n ps => exact ih _ (fun b hb => hnw b (by simp [hb]))
    | identP n => exact ih _ (fun b hb => hnw b (by simp [hb]))
    | arrayP es r => exact ih _ (fun b hb => hnw b (by simp [hb]))
    | exprP pe => exact ih _ (fun b hb => hnw b (by simp [hb]))

/-- Every name in the covered set comes from the accumulator or from a
    variant-pattern arm. -/
theorem coveredScan_mem :
    ∀ (arms : List (MPattern × TExpr)) (acc : List String) (x : String),
      x ∈ (coveredScan arms acc).2 →
      x ∈ acc ∨ ∃ ps e, (MPattern.variantP x ps, e) ∈ arms := by
  intro arms
  induction arms with
  | nil => intro acc x hx; exact Or.inl hx
  | cons a rest ih =>
    intro acc x hx
    rcases a with ⟨p, e0⟩
    cases p with
    | wildcard => exact Or.inl hx
    | variantP n ps0 =>
      rcases ih (insertIfAbsent acc n) x hx with hacc | ⟨ps, e, hmem⟩
      · rcases (insertIfAbsent_mem acc n x).mp hacc with h1 | rfl
        · exact Or.inl h1
        · exact Or.inr ⟨ps0, e0, by simp⟩
      · exact Or.inr ⟨ps, e, by simp [hmem]⟩
    | identP n =>
      rcases ih acc x hx with h1 | ⟨ps, e, hmem⟩
      · exact Or.inl h1
      · exact Or.inr ⟨ps, e, by simp [hmem]⟩
    | arrayP es r =>
      rcases ih acc x hx with h1 | ⟨ps, e, hmem⟩
      · exact Or.inl h1
      · exact Or.inr ⟨ps, e, by simp [hmem]⟩
    | exprP pe =>
      rcases ih acc x hx with h1 | ⟨ps, e, hmem⟩
      · exact Or.inl h1
      · exact Or.inr ⟨ps, e, by simp [hmem]⟩

/-- The covered set of the exhaustiveness scan is duplicate free. -/
theorem coveredScan_nodup :
    ∀ (arms : List (MPattern × TExpr)) (acc : List String), acc.Nodup →
      ((coveredScan arms acc).2).Nodup := by
  intro arms
  induction arms with
  | nil => intro acc h; exact h
  | cons a rest ih =>
    intro acc h
    rcases a with ⟨p, e0⟩
    cases p with
    | wildcard => exact h
    | variantP n ps => exact ih _ (insertIfAbsent_nodup acc n h)
    | identP n => exact ih _ h
    | arrayP es r => exact ih _ h
    | exprP pe => exact ih _ h

/-- A duplicate-free list missing an element of its superlist is
    strictly shorter than the superlist. -/
theorem length_lt_of_missing {l names : List String} (m : String)
    (hm : m ∈ names) (hml : m ∉ l) (hsub : l ⊆ names) (hl : l.Nodup) :
    l.length < names.length := by
  have hsub2 : l ⊆ names.erase m := by
    intro x hx
    have hxm : x ≠ m := fun he => hml (he ▸ hx)
    exact (List.mem_erase_of_ne hxm).mpr (hsub hx)
  have h1 : l.length ≤ (names.erase m).length :=
    (List.subperm_of_subset hl hsub2).length_le
  have h2 : (names.erase m).length = names.length - 1 := List.length_erase_of_mem hm
  have h3 : 0 < names.length := List.length_pos_of_mem hm
  omega

/-- A lookup that does not fail names a key of the list. -/
theorem lookup_ne_none_mem_fst {β : Type} :
    ∀ (l : List (String × β)) (k : String),
      List.lookup k l ≠ none → k ∈ l.map Prod.fst := by
  intro l
  induction l with
  | nil => intro k h; exact absurd rfl h
  | cons p rest ih =>
    intro k h
    rcases p with ⟨k0, b0⟩
    by_cases he : k = k0
    · simp [he]
    · have hbeq : (k == k0) = false := beq_false_of_ne he
      have h2 : List.lookup k rest ≠ none := by
        intro hn
        apply h
        show List.lookup k ((k0, b0) :: rest) = none
        simp only [List.lookup, hbeq]
        exact hn
      simp only [List.map_cons, List.mem_cons]
      exact Or.inr (ih k h2)

/-- When the arm loop of a Sum-scrutinee match succeeds with no active
    patterns registered, every variant-pattern arm names a variant of
    the sum definition. -/
theorem checkMatchArms_variant_known
    (checkF : TExpr → TypeEnv → Option LType → LType) (uF : Nat) (env : TypeEnv)
    (vt : LType) (expected : Option LType) (b : TBinding)
    (hact : env.activePatterns = [])
    (hvt : vt.kind = .SUM_TYPE)
    (hb : env.get (nameOf vt) = some b)
    (hbt : b.type.kind = .SUM_TYPE) :
    ∀ (arms : List (MPattern × TExpr)) (st st2 : MatchArmState),
      checkMatchArms checkF uF env vt expected arms st = .inr st2 →
      ∀ (vn : String) (ps : List String) (e : TExpr),
        (MPattern.variantP vn ps, e) ∈ arms →
        (sumVariantsOf b.type).lookup vn ≠ none := by
  intro arms
  induction arms with
  | nil => intro st st2 _ vn ps e hmem; simp at hmem
  | cons a rest ih =>
    intro st st2 h vn ps e hmem
    simp only [checkMatchArms] at h
    split at h
    · exact absurd h (by simp)
    · rename_i st1 heq
      rcases List.mem_cons.mp hmem with heqa | htail
      · intro hnone
        rw [← heqa] at heq
        simp [checkMatchArm, TypeEnv.getActivePatternType, hact,
          checkMatchArmByKind, hvt, hb, hbt, hnone] at heq
      · exact ih st1 st2 h vn ps e htail

/-- C4: for a match whose single scrutinee has a Sum type (and no
    active patterns are registered): if no arm is a wildcard and some
    variant of the sum is named by no variant-pattern arm, type
    checking returns a semantic error; and if some variant-pattern arm
    names something that is not a variant of the scrutinee sum, type
    checking returns an error as well. -/
theorem c4_match_exhaustiveness :
    ∀ (fuel : Nat) (env : TypeEnv) (s nm : String) (tps : List String)
      (targs : List LType) (vars : List (String × List LType)) (mu mu2 : Bool)
      (arms : List (MPattern × TExpr)) (expected : Option LType),
      env.activePatterns = [] →
      env.get s = some ⟨.sumT nm tps targs vars, mu⟩ →
      env.get nm = some ⟨.sumT nm tps targs vars, mu2⟩ →
      (((∀ a ∈ arms, a.1 ≠ MPattern.wildcard) →
        (vars.map Prod.fst).Nodup →
        (∃ m, m ∈ vars.map Prod.fst ∧ ∀ ps, ∀ a ∈ arms, a.1 ≠ MPattern.variantP m ps) →
        (check (fuel + 2) (.matchE [.identE s] arms) env expected).kind = .ERROR)
      ∧ (∀ (vn : String) (ps : List String) (e : TExpr),
          (MPattern.variantP vn ps, e) ∈ arms →
          vars.lookup vn = none →
          (check (fuel + 2) (.matchE [.identE s] arms) env expected).kind = .ERROR)) := by
  intro fuel env s nm tps targs vars mu mu2 arms expected hact hs hnm
  have hval : check (fuel + 1) (.identE s) env none = .sumT nm tps targs vars := by
    simp [check, hs]
  have hstep : check (fuel + 2) (.matchE [.identE s] arms) env expected
      = checkMatchExpressionF (fun e2 env2 exp2 => check (fuel + 1) e2 env2 exp2)
          (fuel + 1) [.identE s] arms env expected := rfl
  constructor
  · intro hnw hnd hex
    obtain ⟨m, hm, hmiss⟩ := hex
    rcases hms : checkMatchArms (fun e2 env2 exp2 => check (fuel + 1) e2 env2 exp2)
        (fuel + 1) env (.sumT nm tps targs vars) expected arms ⟨none, []⟩ with err | st
    · have hres : check (fuel + 2) (.matchE [.identE s] arms) env expected = err := by
        rw [hstep]
        simp only [checkMatchExpressionF, List.headD_cons]
        rw [if_neg (fun hcon => hcon rfl)]
        rw [hval]
        rw [if_neg (fun hcon => TypeKind.noConfusion hcon)]
        simp only [hms]
      rw [hres]
      exact checkMatchArms_inl_kind _ _ _ _ _ arms _ err hms
    · have hscan1 : (coveredScan arms []).1 = false := coveredScan_no_wildcard arms [] hnw
      have hsub : (coveredScan arms []).2 ⊆ vars.map Prod.fst := by
        intro x hx
        rcases coveredScan_mem arms [] x hx with hacc | ⟨ps, e, hmem⟩
        · simp at hacc
        · have hk := checkMatchArms_variant_known _ (fuel + 1) env
            (.sumT nm tps targs vars) expected ⟨.sumT nm tps targs vars, mu2⟩
            hact rfl hnm rfl arms ⟨none, []⟩ st hms x ps e hmem
          exact lookup_ne_none_mem_fst vars x hk
      have hnomem : m ∉ (coveredScan arms []).2 := by
        intro hmem
        rcases coveredScan_mem arms [] m hmem with hacc | ⟨ps, e, hmem2⟩
        · simp at hacc
        · exact (hmiss ps _ hmem2) rfl
      have hnodupl : ((coveredScan arms []).2).Nodup :=
        coveredScan_nodup arms [] (by simp)
      have hlen : ((coveredScan arms []).2).length < (vars.map Prod.fst).length :=
        length_lt_of_missing m hm hnomem hsub hnodupl
      have hres : check (fuel + 2) (.matchE [.identE s] arms) env expected
          = .errorT ("match is not exhaustive. Missing patterns: "
            ++ String.intercalate ", "
              ((vars.map Prod.fst).filter (fun v => ¬(v ∈ (coveredScan arms []).2)))) := by
        rw [hstep]
        simp only [checkMatchExpressionF, List.headD_cons]
        rw [if_neg (fun hcon => hcon rfl)]
        rw [hval]
        rw [if_neg (fun hcon => TypeKind.noConfusion hcon)]
        simp only [hms]
        have hksum : (LType.sumT nm tps targs vars).kind = TypeKind.SUM_TYPE := rfl
        have hnmeq : nameOf (LType.sumT nm tps targs vars) = nm := rfl
        rw [if_pos hksum, hnmeq]
        simp only [hnm, sumVariantsOf]
        rw [if_pos hksum]
        rw [if_pos (And.intro hscan1 hlen)]
      rw [hres]
      rfl
  · intro vn ps e hmem hnone
    rcases hms : checkMatchArms (fun e2 env2 exp2 => check (fuel + 1) e2 env2 exp2)
        (fuel + 1) env (.sumT nm tps targs vars) expected arms ⟨none, []⟩ with err | st
    · have hres : check (fuel + 2) (.matchE [.identE s] arms) env expected = err := by
        rw [hstep]
        simp only [checkMatchExpressionF, List.headD_cons]
        rw [if_neg (fun hcon => hcon rfl)]
        rw [hval]
        rw [if_neg (fun hcon => TypeKind.noConfusion hcon)]
        simp only [hms]
      rw [hres]
      exact checkMatchArms_inl_kind _ _ _ _ _ arms _ err hms
    · have hk := checkMatchArms_variant_known _ (fuel + 1) env
        (.sumT nm tps targs vars) expected ⟨.sumT nm tps targs vars, mu2⟩
        hact rfl hnm rfl arms ⟨none, []⟩ st hms vn ps e hmem
      exact absurd hnone hk

/-- Witness for c4_match_exhaustiveness on the sum Color with variants
    Red and Blue: a match covering only Red without a wildcard is a
    type error, and a match with an arm naming the unknown variant
    Green is a type error. -/
theorem c4_match_exhaustiveness_witness :
    (check 7 (.matchE [.identE "c"] [(.variantP "Red" [], .intLit 1)])
        ⟨[("c", ⟨.sumT "Color" [] [] [("Red", []), ("Blue", [])], false⟩),
          ("Color", ⟨.sumT "Color" [] [] [("Red", []), ("Blue", [])], false⟩)], []⟩
        none).kind = .ERROR
    ∧ (check 7 (.matchE [.identE "c"] [(.variantP "Green" [], .intLit 1)])
        ⟨[("c", ⟨.sumT "Color" [] [] [("Red", []), ("Blue", [])], false⟩),
          ("Color", ⟨.sumT "Color" [] [] [("Red", []), ("Blue", [])], false⟩)], []⟩
        none).kind = .ERROR :=
  ⟨(c4_match_exhaustiveness 5
      ⟨[("c", ⟨.sumT "Color" [] [] [("Red", []), ("Blue", [])], false⟩),
        ("Color", ⟨.sumT "Color" [] [] [("Red", []), ("Blue", [])], false⟩)], []⟩
      "c" "Color" [] [] [("Red", []), ("Blue", [])] false false
      [(.variantP "Red" [], .intLit 1)] none rfl rfl rfl).1
      (by simp) (by simp) ⟨"Blue", by simp, by simp⟩,
    (c4_match_exhaustiveness 5
      ⟨[("c", ⟨.sumT "Color" [] [] [("Red", []), ("Blue", [])], false⟩),
        ("Color", ⟨.sumT "Color" [] [] [("Red", []), ("Blue", [])], false⟩)], []⟩
      "c" "Color" [] [] [("Red", []), ("Blue", [])] false false
      [(.variantP "Green" [], .intLit 1)] none rfl rfl rfl).2
      "Green" [] (.intLit 1) (by simp) rfl⟩

end Lumen
